import Mathlib

/-!
# Verification of the mummy serialization format and schema layer

A shallow embedding of the pure-Python reference implementation of the
mummy serializer (`mummy/serialization.py`: `pure_python_dumps`,
`pure_python_loads` and their helper dumpers/loaders) and of the schema
layer (`mummy/schemas.py`: `_validate`, `_transform`, `_untransform`,
`Message`).

Modelling conventions:
* Byte strings are `List Nat` with each element < 256.
* The embedding follows the Python 2 semantics of the source (where
  `str` = byte string, `""` concatenates with byte strings, and mixed
  numeric/string comparisons order numbers before strings); the source's
  Python 3 shims are not modelled.
* IEEE-754 doubles are represented by their 64-bit big-endian bit
  pattern (a `Nat` below 2^64); `struct.pack("!d")`/`unpack` are the
  identity on that representation.
* Unicode strings are represented by their UTF-8 encoding (a valid
  UTF-8 byte list); Python's `.encode('utf8')` is then the identity and
  `.decode('utf8')` is the identity guarded by UTF-8 validity.
* Python exceptions are an explicit error type `PyErr`; fallible
  functions return `Except PyErr _`.
* The decoder's recursion (which is unbounded in the source) is driven
  by a fuel parameter; the top-level entry point supplies `length + 1`
  fuel, which is sufficient because every nested call consumes at least
  one byte.  Exhausted fuel is the artificial error `.stackOverflow`,
  which also stands for the host interpreter's recursion limit.
* The optional `lzf` module is a parameter (`Option LZF`): `none`
  models `import lzf` having failed, mirroring the source's
  `try: import lzf / except ImportError: lzf = None`.
-/

/-! ## Byte-level helpers (the `struct` module and `chr`/`ord`) -/

/-- Big-endian bytes of a natural number, fixed width `w` (like
`struct.pack` for unsigned formats). -/
def natBytesBE (w : Nat) (n : Nat) : List Nat :=
  (List.range w).map (fun i => n / 256 ^ (w - 1 - i) % 256)

/-- Big-endian accumulation of a byte list into a natural number (like
`struct.unpack` for unsigned formats). -/
def beNat (s : List Nat) : Nat :=
  s.foldl (fun a b => a * 256 + b) 0

/-- Interpret an unsigned `bits`-bit value as two's-complement signed. -/
def toSigned (bits : Nat) (n : Nat) : Int :=
  if n < 2 ^ (bits - 1) then (n : Int) else (n : Int) - 2 ^ bits

/-! ## The value model

`MValue` is the union of Python values the serializer supports
(`_get_type_code` in the source): `None`, `bool`, `int`/`long`,
`float`, `str` (bytes), `unicode` (text), `list`, `tuple`,
`set`/`frozenset`, `dict`, `datetime.date`, `datetime.time`,
`datetime.datetime`, `datetime.timedelta` and `decimal.Decimal`
(split into finite decimals, infinities and NaNs, matching the
source's `is_nan()`/`is_infinite()` dispatch).

Sets and dicts are represented by their iteration order (a list of
elements / key-value pairs). -/
inductive MValue where
  | vnull : MValue
  | vbool (b : Bool) : MValue
  | vint (x : Int) : MValue
  | vfloat (bits : Nat) : MValue
  | vbytes (s : List Nat) : MValue
  | vtext (s : List Nat) : MValue
  | vlist (items : List MValue) : MValue
  | vtuple (items : List MValue) : MValue
  | vset (items : List MValue) : MValue
  | vdict (pairs : List (MValue × MValue)) : MValue
  | vdate (y m d : Nat) : MValue
  | vtime (h mi s us : Nat) : MValue
  | vdatetime (y mo d h mi s us : Nat) : MValue
  | vtimedelta (days seconds micros : Int) : MValue
  | vdecimal (sign : Nat) (digits : List Nat) (expo : Int) : MValue
  | vinf (neg : Bool) : MValue
  | vnan (signaling : Bool) (sign : Nat) (payload : List Nat) : MValue

/-! ## Schema types (`mummy/schemas.py`)

Atomic instances appearing in schemas (and as dict-schema keys) are
values of the four `_validators`-dispatched instance types
`bool`, `int`/`long`, `float`, `str`. -/
inductive Atom where
  | abool (b : Bool) : Atom
  | aint (n : Int) : Atom
  | afloat (bits : Nat) : Atom
  | astr (s : List Nat) : Atom
deriving DecidableEq, Repr

/-- The nine `_primitives` type objects usable as simple-type schemas
and as dict-schema wildcard keys. -/
inductive AtomType where
  | tbool | tint | tfloat | tstr | tdate | ttime | tdatetime | ttimedelta | tdecimal
deriving DecidableEq, Repr

/-- A dict-schema key: an atomic instance, a primitive type object
(wildcard), or `OPTIONAL(instance)`. -/
inductive DKey where
  | kinst (a : Atom) : DKey
  | ktyp (t : AtomType) : DKey
  | kopt (a : Atom) : DKey
deriving DecidableEq, Repr

/-- Schemas, per the grammar in `mummy/schemas.py`.  `sopt` is the
`OPTIONAL` wrapper object (which, as in the source, is a first-class
object that may appear anywhere a schema may). -/
inductive Schema where
  | inst (a : Atom) : Schema
  | styp (t : AtomType) : Schema
  | sopt (s : Schema) : Schema
  | stup (items : List Schema) : Schema
  | slist (items : List Schema) : Schema
  | sdict (pairs : List (DKey × Schema)) : Schema
  | sunion (options : List Schema) : Schema
  | sany : Schema
  | srule (pred : MValue → Bool) : Schema

/-- Python exceptions raised by the modelled code. -/
inductive PyErr where
  /-- Source `ValueError("max depth exceeded")` from `pure_python_dumps`. -/
  | maxDepthExceeded
  /-- Source `ValueError("invalid digit")` from `_dump_decimal`. -/
  | invalidDigit
  /-- Source `ValueError("no data from which to load")` from `pure_python_loads`. -/
  | noDataToLoad
  /-- Source `struct.error` from a `struct.pack`/`struct.unpack` with an
  out-of-range value or wrong-sized input. -/
  | structError
  /-- Source `IndexError` from indexing past the end of a byte string or list. -/
  | indexError
  /-- Source `KeyError` from a failed dict lookup (unknown type tag, missing
  message key, missing wildcard schema entry, or a schema object whose
  type is not in `_validators`). -/
  | keyError
  /-- Source `UnboundLocalError` (a `NameError` subclass) from reading the loop
  variable `i` in `_validate_tuple` when the loop body never ran. -/
  | nameError
  /-- Source `TypeError`. -/
  | typeError
  /-- Source `OverflowError` from the `datetime.timedelta` constructor. -/
  | overflowError
  /-- Source `UnicodeDecodeError` from `.decode('utf8')` on invalid UTF-8. -/
  | unicodeDecodeError
  /-- Source `RuntimeError("can't decompress without python-lzf")`. -/
  | lzfUnavailable
  /-- Source `ValueError` from a `datetime`/`decimal` constructor rejecting an
  out-of-range field. -/
  | valueRangeError
  /-- Artificial: decoder fuel exhausted (stands for the host
  interpreter's recursion limit, `RecursionError`). -/
  | stackOverflow
  /-- Source `Message.InvalidMessage(info)` carrying the offending
  (sub-message, sub-schema) pair from validation. -/
  | invalidMessage (info : Option (MValue × Schema))

/-! ## Numeric values and Python `==`/`<`

Python compares booleans, ints, floats and decimals numerically across
types.  `NumVal` is the common numeric domain (exact rationals plus the
infinities and NaN). -/
inductive NumVal where
  | fin (q : ℚ) : NumVal
  | pinf : NumVal
  | ninf : NumVal
  | nan : NumVal
deriving DecidableEq

/-- Decode an IEEE-754 binary64 bit pattern into a `NumVal`. -/
def floatVal (bits : Nat) : NumVal :=
  let s : Nat := bits / 2 ^ 63 % 2
  let e : Nat := bits / 2 ^ 52 % 2 ^ 11
  let f : Nat := bits % 2 ^ 52
  if e = 2047 then
    if f = 0 then (if s = 1 then .ninf else .pinf) else .nan
  else
    let m : ℚ :=
      if e = 0 then (f : ℚ) * (2 : ℚ) ^ (-1074 : ℤ)
      else ((2 ^ 52 + f : ℚ)) * (2 : ℚ) ^ ((e : ℤ) - 1075)
    .fin (if s = 1 then -m else m)

/-- The numeric value of a finite decimal `(sign, digits, exponent)`. -/
def decimalVal (sign : Nat) (digits : List Nat) (expo : Int) : ℚ :=
  let n : Nat := digits.foldl (fun a d => a * 10 + d) 0
  let mag : ℚ := (n : ℚ) * (10 : ℚ) ^ expo
  if sign = 1 then -mag else mag

/-- The numeric interpretation of a message value, when it has one
(Python's numeric tower: `bool`, `int`, `float`, `Decimal`). -/
def numVal : MValue → Option NumVal
  | .vbool b => some (.fin (if b then 1 else 0))
  | .vint n => some (.fin (n : ℚ))
  | .vfloat bits => some (floatVal bits)
  | .vdecimal sign digits expo => some (.fin (decimalVal sign digits expo))
  | .vinf neg => some (if neg then .ninf else .pinf)
  | .vnan _ _ _ => some .nan
  | _ => none

/-- Python `==` on numeric values: NaN is unequal to everything
(including itself). -/
def numEq : NumVal → NumVal → Bool
  | .fin a, .fin b => a = b
  | .pinf, .pinf => true
  | .ninf, .ninf => true
  | _, _ => false

/-- Python `<` on numeric values: comparisons with NaN are `False`. -/
def numLt : NumVal → NumVal → Bool
  | .fin a, .fin b => a < b
  | .fin _, .pinf => true
  | .ninf, .fin _ => true
  | .ninf, .pinf => true
  | _, _ => false

/-! ## Python `==` on message values

Used by dict lookups, set/dict deduplication on decode, and
atomic-instance schema matching.  Numeric values compare across types;
sequences compare elementwise; sets by containment and size; dicts by
size and key-wise value lookup; Python 2 `str`/`unicode` comparison
coerces via ASCII. -/
def pyEqListF (f : MValue → MValue → Bool) : List MValue → List MValue → Bool
  | [], [] => true
  | x :: xs, y :: ys => f x y && pyEqListF f xs ys
  | _, _ => false

def pyMemF (f : MValue → MValue → Bool) (x : MValue) : List MValue → Bool
  | [] => false
  | y :: ys => f x y || pyMemF f x ys

def pySubsetF (f : MValue → MValue → Bool) : List MValue → List MValue → Bool
  | [], _ => true
  | x :: xs, ys => pyMemF f x ys && pySubsetF f xs ys

def pyLookupF (f : MValue → MValue → Bool) (k : MValue) :
    List (MValue × MValue) → Option MValue
  | [] => none
  | (k2, v) :: ps => if f k k2 then some v else pyLookupF f k ps

def pyEqPairsF (f : MValue → MValue → Bool) :
    List (MValue × MValue) → List (MValue × MValue) → Bool
  | [], _ => true
  | (k, v) :: ps, qs =>
      (match pyLookupF f k qs with
       | some w => f v w
       | none => false) && pyEqPairsF f ps qs

/-- Python `==`, structured on a recursion budget: every recursive
comparison is against a strict subterm of the first argument, so
`sizeOf` of the first argument is always sufficient fuel (the top-level
entry `pyEq` supplies it). -/
def pyEqF : Nat → MValue → MValue → Bool
  | 0, _, _ => false
  | fuel + 1, a, b =>
    match numVal a, numVal b with
    | some x, some y => numEq x y
    | some _, none => false
    | none, some _ => false
    | none, none =>
      match a, b with
      | .vnull, .vnull => true
      | .vbytes s, .vbytes t => s = t
      | .vbytes s, .vtext t => s = t && s.all (· < 128)
      | .vtext s, .vbytes t => s = t && s.all (· < 128)
      | .vtext s, .vtext t => s = t
      | .vlist xs, .vlist ys => pyEqListF (pyEqF fuel) xs ys
      | .vtuple xs, .vtuple ys => pyEqListF (pyEqF fuel) xs ys
      | .vset xs, .vset ys => decide (xs.length = ys.length) && pySubsetF (pyEqF fuel) xs ys
      | .vdict ps, .vdict qs => decide (ps.length = qs.length) && pyEqPairsF (pyEqF fuel) ps qs
      | .vdate y m d, .vdate y2 m2 d2 => y = y2 && m = m2 && d = d2
      | .vtime h mi s us, .vtime h2 mi2 s2 us2 => h = h2 && mi = mi2 && s = s2 && us = us2
      | .vdatetime y mo d h mi s us, .vdatetime y2 mo2 d2 h2 mi2 s2 us2 =>
          y = y2 && mo = mo2 && d = d2 && h = h2 && mi = mi2 && s = s2 && us = us2
      | .vtimedelta a1 a2 a3, .vtimedelta b1 b2 b3 => a1 = b1 && a2 = b2 && a3 = b3
      | _, _ => false

mutual

/-- Structural size of a value (computable stand-in for `sizeOf`; any
value strictly contains its children, so it bounds the recursion depth
of Python `==`). -/
def mvalSize : MValue → Nat
  | .vlist items => mvalSizeItems items + 1
  | .vtuple items => mvalSizeItems items + 1
  | .vset items => mvalSizeItems items + 1
  | .vdict pairs => mvalSizePairs pairs + 1
  | _ => 1

def mvalSizeItems : List MValue → Nat
  | [] => 1
  | v :: r => mvalSize v + mvalSizeItems r

def mvalSizePairs : List (MValue × MValue) → Nat
  | [] => 1
  | (k, v) :: r => mvalSize k + mvalSize v + mvalSizePairs r

end

def pyEq (a b : MValue) : Bool := pyEqF (mvalSize a) a b

/-- Python dict insertion (`result[key] = value`): overwrite the value
of an `==`-equal key (keeping the original key and position), else
append. -/
def pyDictInsert (ps : List (MValue × MValue)) (k v : MValue) : List (MValue × MValue) :=
  match ps with
  | [] => [(k, v)]
  | (k2, v2) :: rest =>
      if pyEq k2 k then (k2, v) :: rest else (k2, v2) :: pyDictInsert rest k v

/-- Python `set(lst)` construction: deduplicate, keeping the first
occurrence of `==`-equal elements (iteration order of the model). -/
def pySetOfList : List MValue → List MValue
  | [] => []
  | x :: rest =>
      let r := pySetOfList rest
      if pyMemF pyEq x r then x :: r.filter (fun y => !pyEq x y) else x :: r

/-! ## Byte-length of the `huge` body, recursion depth, well-formedness -/

/-- The little-endian byte extraction loop of `_dump_huge`
(`while x: data.append(x & 0xff); x >>= 8`), structured on a budget:
`x` itself is always sufficient since `x / 256 < x` for `x ≠ 0`. -/
def hugeBytesLEF : Nat → Nat → List Nat
  | 0, _ => []
  | fuel + 1, x => if x = 0 then [] else x % 256 :: hugeBytesLEF fuel (x / 256)

def hugeBytesLE (x : Nat) : List Nat := hugeBytesLEF x x

/-- The magnitude `_dump_huge` extracts bytes from (`~x` for negative
`x`). -/
def hugeMag (x : Int) : Nat := if x < 0 then (-x - 1).toNat else x.toNat

/-- The `huge` body (sign byte included) fits the u32 length prefix. -/
def hugeLenOK (x : Int) : Bool :=
  decide ((hugeBytesLE (hugeMag x)).length < 4294967295)

mutual

/-- Depth of the deepest value node, the root being at depth 0: this is
the largest `depth` argument `pure_python_dumps` is invoked with when
serializing the value (each container dumps its children at
`depth + 1`). -/
def maxNodeDepth : MValue → Nat
  | .vlist items => depthItems items
  | .vtuple items => depthItems items
  | .vset items => depthItems items
  | .vdict pairs => depthPairs pairs
  | _ => 0

def depthItems : List MValue → Nat
  | [] => 0
  | v :: r => max (1 + maxNodeDepth v) (depthItems r)

def depthPairs : List (MValue × MValue) → Nat
  | [] => 0
  | (k, v) :: r => max (max (1 + maxNodeDepth k) (1 + maxNodeDepth v)) (depthPairs r)

end

/-- Continuation byte of a UTF-8 sequence. -/
def utf8Cont (b : Nat) : Bool := 0x80 ≤ b && b ≤ 0xBF

/-- Strict UTF-8 validity (what Python's `'utf8'` codec accepts:
no overlong forms, no surrogates, at most U+10FFFF). -/
def utf8Valid : List Nat → Bool
  | [] => true
  | b :: r =>
    if b ≤ 0x7F then utf8Valid r
    else if 0xC2 ≤ b && b ≤ 0xDF then
      match r with
      | c1 :: r2 => utf8Cont c1 && utf8Valid r2
      | [] => false
    else if b = 0xE0 then
      match r with
      | c1 :: c2 :: r2 => (0xA0 ≤ c1 && c1 ≤ 0xBF) && utf8Cont c2 && utf8Valid r2
      | _ => false
    else if (0xE1 ≤ b && b ≤ 0xEC) || b = 0xEE || b = 0xEF then
      match r with
      | c1 :: c2 :: r2 => utf8Cont c1 && utf8Cont c2 && utf8Valid r2
      | _ => false
    else if b = 0xED then
      match r with
      | c1 :: c2 :: r2 => (0x80 ≤ c1 && c1 ≤ 0x9F) && utf8Cont c2 && utf8Valid r2
      | _ => false
    else if b = 0xF0 then
      match r with
      | c1 :: c2 :: c3 :: r2 =>
          (0x90 ≤ c1 && c1 ≤ 0xBF) && utf8Cont c2 && utf8Cont c3 && utf8Valid r2
      | _ => false
    else if 0xF1 ≤ b && b ≤ 0xF3 then
      match r with
      | c1 :: c2 :: c3 :: r2 => utf8Cont c1 && utf8Cont c2 && utf8Cont c3 && utf8Valid r2
      | _ => false
    else if b = 0xF4 then
      match r with
      | c1 :: c2 :: c3 :: r2 =>
          (0x80 ≤ c1 && c1 ≤ 0x8F) && utf8Cont c2 && utf8Cont c3 && utf8Valid r2
      | _ => false
    else false

/-- Gregorian leap year (`calendar.isleap`). -/
def isLeap (y : Nat) : Bool := y % 4 = 0 && (y % 100 ≠ 0 || y % 400 = 0)

/-- Days in a month, as validated by the `datetime.date` constructor. -/
def daysInMonth (y m : Nat) : Nat :=
  if m = 2 then (if isLeap y then 29 else 28)
  else if m = 4 || m = 6 || m = 9 || m = 11 then 30
  else 31

/-- Field ranges accepted by the `datetime.date` constructor. -/
def dateOK (y m d : Nat) : Bool :=
  (1 ≤ y && y ≤ 9999) && (1 ≤ m && m ≤ 12) && (1 ≤ d && d ≤ daysInMonth y m)

/-- Field ranges accepted by the `datetime.time` constructor. -/
def timeOK (h mi s us : Nat) : Bool :=
  h < 24 && mi < 60 && s < 60 && us < 1000000

mutual

/-- Well-formed message values: the invariants Python values of the
corresponding types satisfy (byte ranges, normalized date/time and
timedelta fields, `as_tuple()` decimal shape), plus the length bounds
of the widest on-wire length prefixes. -/
def wfValue : MValue → Bool
  | .vnull => true
  | .vbool _ => true
  | .vint x => hugeLenOK x
  | .vfloat bits => decide (bits < 2 ^ 64)
  | .vbytes s => s.all (· < 256) && decide (s.length < 2 ^ 32)
  | .vtext s => utf8Valid s && decide (s.length < 2 ^ 32)
  | .vlist items => wfItems items && decide (items.length < 2 ^ 32)
  | .vtuple items => wfItems items && decide (items.length < 2 ^ 32)
  | .vset items => wfItems items && decide (items.length < 2 ^ 32)
  | .vdict pairs => wfMPairs pairs && decide (pairs.length < 2 ^ 32)
  | .vdate y m d => dateOK y m d
  | .vtime h mi s us => timeOK h mi s us
  | .vdatetime y mo d h mi s us => dateOK y mo d && timeOK h mi s us
  | .vtimedelta dd ss uu =>
      decide (-999999999 ≤ dd) && decide (dd ≤ 999999999) &&
      decide (0 ≤ ss) && decide (ss < 86400) &&
      decide (0 ≤ uu) && decide (uu < 1000000)
  | .vdecimal sign digits expo =>
      (sign == 0 || sign == 1) && !digits.isEmpty && digits.all (· ≤ 9) &&
      decide (digits.length ≤ 65535) &&
      decide (-32768 ≤ expo) && decide (expo < 32768)
  | .vinf _ => true
  | .vnan _ sign payload => (sign == 0 || sign == 1) && payload.all (· ≤ 9)

def wfItems : List MValue → Bool
  | [] => true
  | v :: r => wfValue v && wfItems r

def wfMPairs : List (MValue × MValue) → Bool
  | [] => true
  | (k, v) :: r => wfValue k && wfValue v && wfMPairs r

end

/-! ## The optional `lzf` module -/

/-- Abstract interface of the `python-lzf` module: `compress(data,
bound)` returns `none` when the compressed form does not fit in
`bound` bytes; `decompress(data, bufsize)` decompresses into a buffer
of `bufsize` bytes. -/
structure LZF where
  compress : List Nat → Nat → Option (List Nat)
  decompress : List Nat → Int → List Nat

/-! ## Dumpers (`mummy/serialization.py`) -/

def MAX_DEPTH : Nat := 256

/-- Source `_get_type_code`: exact-type dispatch plus narrowest-width
selection for integers and narrowest-length-class selection for
strings and containers. -/
def _get_type_code : MValue → Nat
  | .vnull => 0x0
  | .vbool _ => 0x1
  | .vfloat _ => 0x7
  | .vlist items =>
      if items.length < 256 then 0x10 else if items.length < 65536 then 0x14 else 0xC
  | .vtuple items =>
      if items.length < 256 then 0x11 else if items.length < 65536 then 0x15 else 0xD
  | .vset items =>
      if items.length < 256 then 0x12 else if items.length < 65536 then 0x16 else 0xE
  | .vdict pairs =>
      if pairs.length < 256 then 0x13 else if pairs.length < 65536 then 0x17 else 0xF
  | .vbytes s =>
      if s.length < 256 then 0x8 else if s.length < 65536 then 0x18 else 0x9
  | .vtext s =>
      if s.length < 256 then 0xA else if s.length < 65536 then 0x19 else 0xB
  | .vint x =>
      if -128 ≤ x ∧ x < 128 then 0x2
      else if -32768 ≤ x ∧ x < 32768 then 0x3
      else if -2147483648 ≤ x ∧ x < 2147483648 then 0x4
      else if -9223372036854775808 ≤ x ∧ x < 9223372036854775808 then 0x5
      else 0x6
  | .vdate _ _ _ => 0x1A
  | .vtime _ _ _ _ => 0x1B
  | .vdatetime _ _ _ _ _ _ _ => 0x1C
  | .vtimedelta _ _ _ => 0x1D
  | .vdecimal _ _ _ => 0x1E
  | .vinf _ => 0x1F
  | .vnan _ _ _ => 0x1F

/-- Source `_dump_char`: one signed byte (`if x < 0: x += 256; chr(x)`).  Also
used for the tag byte. -/
def _dump_char (x : Int) : List Nat :=
  let x := if x < 0 then x + 256 else x
  [x.toNat % 256]

/-- Source `_dump_uchar`: `chr(x)` for an unsigned byte. -/
def _dump_uchar (x : Nat) : List Nat := [x % 256]

/-- Source `struct.pack` for a big-endian signed format of `w` bytes, with
`struct`'s range check. -/
def packSigned (w : Nat) (x : Int) : Except PyErr (List Nat) :=
  if -(2 ^ (8 * w - 1)) ≤ x ∧ x < 2 ^ (8 * w - 1) then
    .ok (natBytesBE w (x % (2 ^ (8 * w) : Nat)).toNat)
  else .error .structError

/-- Source `struct.pack` for a big-endian unsigned format of `w` bytes. -/
def packUnsigned (w : Nat) (x : Nat) : Except PyErr (List Nat) :=
  if x < 2 ^ (8 * w) then .ok (natBytesBE w x) else .error .structError

/-- Source `_dump_short`: `struct.pack("!h", x)`. -/
def _dump_short (x : Int) : Except PyErr (List Nat) := packSigned 2 x

/-- Source `_dump_ushort`: `struct.pack("!H", x)`. -/
def _dump_ushort (x : Nat) : Except PyErr (List Nat) := packUnsigned 2 x

/-- Source `_dump_int`: `struct.pack("!i", x)`. -/
def _dump_int (x : Int) : Except PyErr (List Nat) := packSigned 4 x

/-- Source `_dump_uint`: `struct.pack("!I", x)`. -/
def _dump_uint (x : Nat) : Except PyErr (List Nat) := packUnsigned 4 x

/-- Source `_dump_long`: `struct.pack("!q", x)`. -/
def _dump_long (x : Int) : Except PyErr (List Nat) := packSigned 8 x

/-- Source `_dump_double`: `struct.pack("!d", x)` on the bit-pattern model. -/
def _dump_double (bits : Nat) : List Nat := natBytesBE 8 bits

/-- Source `_dump_huge`: minimal two's-complement big-endian bytes with a u32
length prefix.  `data[0]` on the empty byte list (which happens exactly
for `x ∈ {0, -1}`, unreachable from `pure_python_dumps`) raises
`IndexError`. -/
def _dump_huge (x : Int) : Except PyErr (List Nat) :=
  let neg := x < 0
  let m : Nat := hugeMag x
  let data := hugeBytesLE m
  let data := if neg then data.map (fun b => b ^^^ 0xff) else data
  let data := data.reverse
  match data with
  | [] => .error .indexError
  | b :: _ =>
    let data :=
      if neg ∧ b &&& 0x80 = 0 then 255 :: data
      else if ¬ neg ∧ b &&& 0x80 ≠ 0 then 0 :: data
      else data
    match _dump_uint data.length with
    | .error e => .error e
    | .ok pre => .ok (pre ++ data)

/-- The digit-pair packing loop of `_dump_decimal` (first digit in the
low nibble, second in the high nibble of the same byte). -/
def packNibbles : List Nat → List Nat
  | [] => []
  | [d] => [d]
  | d1 :: d2 :: rest => (d1 ||| (d2 <<< 4)) :: packNibbles rest

/-- Source `_dump_decimal`: `struct.pack("!bhH", sign, expo, len(digits))`
followed by the packed digit nibbles; any digit outside 0–9 raises
`ValueError("invalid digit")`. -/
def _dump_decimal (sign : Nat) (digits : List Nat) (expo : Int) : Except PyErr (List Nat) :=
  if digits.all (· ≤ 9) then
    match packSigned 1 (sign : Int), packSigned 2 expo, packUnsigned 2 digits.length with
    | .ok b1, .ok b2, .ok b3 => .ok (b1 ++ b2 ++ b3 ++ packNibbles digits)
    | .error e, _, _ => .error e
    | _, .error e, _ => .error e
    | _, _, .error e => .error e
  else .error .invalidDigit

/-- Source `_dump_specialnum`: one classifier byte (sNaN checked first, then
NaN, then infinity with its sign bit). -/
def _dump_specialnum : MValue → List Nat
  | .vnan true _ _ => _dump_uchar (0x20 ||| 1)
  | .vnan false _ _ => _dump_uchar 0x20
  | .vinf neg => _dump_uchar (0x10 ||| (if neg then 1 else 0))
  | _ => []

/-- The `"".join(pure_python_dumps(item, default, depth + 1, compress=0)
for item in x)` loop of the container dumpers, parameterized by the
child serializer (which the caller instantiates with the incremented
depth and `compress=0`). -/
def dumpItems (f : MValue → Except PyErr (List Nat)) : List MValue → Except PyErr (List Nat)
  | [] => .ok []
  | v :: rest =>
      match f v with
      | .error e => .error e
      | .ok b =>
        match dumpItems f rest with
        | .error e => .error e
        | .ok r => .ok (b ++ r)

/-- The flattened `reduce(lambda a, b: a.extend(b) or a, iteritems(x),
[])` loop of the dict dumpers: alternating keys and values. -/
def dumpPairs (f : MValue → Except PyErr (List Nat)) :
    List (MValue × MValue) → Except PyErr (List Nat)
  | [] => .ok []
  | (k, v) :: rest =>
      match f k with
      | .error e => .error e
      | .ok kb =>
        match f v with
        | .error e => .error e
        | .ok vb =>
          match dumpPairs f rest with
          | .error e => .error e
          | .ok r => .ok (kb ++ vb ++ r)

/-- Source `_dumpers[kind](item, depth, default)`: the per-type body dumpers,
fused with the `kind` dispatch (the length-class conditions are those
of `_get_type_code`).  `f` is the serializer applied to container
children, i.e. `pure_python_dumps` at `depth + 1` with `compress=0`. -/
def dumpBody (f : MValue → Except PyErr (List Nat)) (item : MValue) : Except PyErr (List Nat) :=
  match item with
  | .vnull => .ok []
  | .vbool b => .ok [if b then 1 else 0]
  | .vint x =>
      if -128 ≤ x ∧ x < 128 then .ok (_dump_char x)
      else if -32768 ≤ x ∧ x < 32768 then _dump_short x
      else if -2147483648 ≤ x ∧ x < 2147483648 then _dump_int x
      else if -9223372036854775808 ≤ x ∧ x < 9223372036854775808 then _dump_long x
      else _dump_huge x
  | .vfloat bits => .ok (_dump_double bits)
  | .vbytes s =>
      if s.length < 256 then .ok (_dump_uchar s.length ++ s)
      else if s.length < 65536 then
        match _dump_ushort s.length with
        | .ok p => .ok (p ++ s) | .error e => .error e
      else
        match _dump_uint s.length with
        | .ok p => .ok (p ++ s) | .error e => .error e
  | .vtext s =>
      if s.length < 256 then .ok (_dump_uchar s.length ++ s)
      else if s.length < 65536 then
        match _dump_ushort s.length with
        | .ok p => .ok (p ++ s) | .error e => .error e
      else
        match _dump_uint s.length with
        | .ok p => .ok (p ++ s) | .error e => .error e
  | .vlist items =>
      match dumpItems f items with
      | .error e => .error e
      | .ok rest =>
        if items.length < 256 then .ok (_dump_uchar items.length ++ rest)
        else if items.length < 65536 then
          match _dump_ushort items.length with
          | .ok p => .ok (p ++ rest) | .error e => .error e
        else
          match _dump_uint items.length with
          | .ok p => .ok (p ++ rest) | .error e => .error e
  | .vtuple items =>
      match dumpItems f items with
      | .error e => .error e
      | .ok rest =>
        if items.length < 256 then .ok (_dump_uchar items.length ++ rest)
        else if items.length < 65536 then
          match _dump_ushort items.length with
          | .ok p => .ok (p ++ rest) | .error e => .error e
        else
          match _dump_uint items.length with
          | .ok p => .ok (p ++ rest) | .error e => .error e
  | .vset items =>
      match dumpItems f items with
      | .error e => .error e
      | .ok rest =>
        if items.length < 256 then .ok (_dump_uchar items.length ++ rest)
        else if items.length < 65536 then
          match _dump_ushort items.length with
          | .ok p => .ok (p ++ rest) | .error e => .error e
        else
          match _dump_uint items.length with
          | .ok p => .ok (p ++ rest) | .error e => .error e
  | .vdict pairs =>
      match dumpPairs f pairs with
      | .error e => .error e
      | .ok rest =>
        if pairs.length < 256 then .ok (_dump_uchar pairs.length ++ rest)
        else if pairs.length < 65536 then
          match _dump_ushort pairs.length with
          | .ok p => .ok (p ++ rest) | .error e => .error e
        else
          match _dump_uint pairs.length with
          | .ok p => .ok (p ++ rest) | .error e => .error e
  | .vdate y m d =>
      match _dump_ushort y with
      | .ok yb => .ok (yb ++ _dump_char (m : Int) ++ _dump_char (d : Int))
      | .error e => .error e
  | .vtime h mi s us =>
      match _dump_uint us with
      | .ok ub => .ok (_dump_char (h : Int) ++ _dump_char (mi : Int) ++ _dump_char (s : Int) ++ ub.drop 1)
      | .error e => .error e
  | .vdatetime y mo d h mi s us =>
      match _dump_ushort y, _dump_uint us with
      | .ok yb, .ok ub =>
          .ok ((yb ++ _dump_char (mo : Int) ++ _dump_char (d : Int)) ++
               (_dump_char (h : Int) ++ _dump_char (mi : Int) ++ _dump_char (s : Int) ++ ub.drop 1))
      | .error e, _ => .error e
      | _, .error e => .error e
  | .vtimedelta dd ss uu =>
      match _dump_int dd, _dump_int ss, _dump_int uu with
      | .ok a, .ok b, .ok c => .ok (a ++ b ++ c)
      | .error e, _, _ => .error e
      | _, .error e, _ => .error e
      | _, _, .error e => .error e
  | .vdecimal sign digits expo => _dump_decimal sign digits expo
  | .vinf neg => .ok (_dump_specialnum (.vinf neg))
  | .vnan sg sn p => .ok (_dump_specialnum (.vnan sg sn p))

/-- The recursive core of `pure_python_dumps`, structured on the
remaining depth budget `MAX_DEPTH - depth`: the source's entry check
`if depth >= MAX_DEPTH: raise ValueError("max depth exceeded")` is
exactly the budget-0 case, and each container child is serialized at
`depth + 1`, i.e. with budget one less.  After the body is produced:
type-code tag, and the optional LZF envelope (only when `compress` is
set, the module is available, and the body exceeds 5 bytes; kept only
when compression returned a non-empty result). -/
def dumpsRec (lzf : Option LZF) : Nat → MValue → Bool → Except PyErr (List Nat)
  | 0, _, _ => .error .maxDepthExceeded
  | fuel + 1, item, compress =>
    match dumpBody (fun v => dumpsRec lzf fuel v false) item with
    | .error e => .error e
    | .ok data =>
      let kind := _get_type_code item
      match lzf with
      | some L =>
        if compress ∧ 5 < data.length then
          match L.compress data (data.length - 5) with
          | some c =>
            if c.isEmpty then .ok (_dump_char (kind : Int) ++ data)
            else
              match _dump_int (data.length : Int) with
              | .error e => .error e
              | .ok pre => .ok (_dump_char ((kind ||| 0x80 : Nat) : Int) ++ pre ++ c)
          | none => .ok (_dump_char (kind : Int) ++ data)
        else .ok (_dump_char (kind : Int) ++ data)
      | none => .ok (_dump_char (kind : Int) ++ data)

/-- Source `pure_python_dumps(item, default=None, depth=depth,
compress=compress)` (the `default` fallback is not modelled: every
`MValue` has a type code). -/
def pure_python_dumps (lzf : Option LZF) (item : MValue) (depth : Nat) (compress : Bool) :
    Except PyErr (List Nat) :=
  dumpsRec lzf (MAX_DEPTH - depth) item compress

/-! ## Loaders (`mummy/serialization.py`) -/

/-- Source `ord(x[0])`: the first byte, or `IndexError`. -/
def loadByte0 (x : List Nat) : Except PyErr Nat :=
  match x with
  | [] => .error .indexError
  | b :: _ => .ok b

/-- Source `_load_bool`: `bool(ord(x[0]))` — any nonzero byte is `True`. -/
def _load_bool (x : List Nat) : Except PyErr (MValue × Nat) :=
  match loadByte0 x with
  | .error e => .error e
  | .ok b => .ok (.vbool (b != 0), 1)

/-- Source `_load_char`: one signed byte. -/
def _load_char (x : List Nat) : Except PyErr (Int × Nat) :=
  match loadByte0 x with
  | .error e => .error e
  | .ok b => .ok (if 128 ≤ b then (b : Int) - 256 else (b : Int), 1)

/-- Source `_load_uchar`: one unsigned byte. -/
def _load_uchar (x : List Nat) : Except PyErr (Nat × Nat) :=
  match loadByte0 x with
  | .error e => .error e
  | .ok b => .ok (b, 1)

/-- Source `struct.unpack` of a `w`-byte big-endian unsigned field from
`x[:w]` (`struct.error` when fewer than `w` bytes remain). -/
def unpackBE (w : Nat) (x : List Nat) : Except PyErr Nat :=
  let s := x.take w
  if s.length = w then .ok (beNat s) else .error .structError

/-- Source `_load_short`: `struct.unpack("!h", x[:2])`. -/
def _load_short (x : List Nat) : Except PyErr (Int × Nat) :=
  match unpackBE 2 x with
  | .error e => .error e
  | .ok n => .ok (toSigned 16 n, 2)

/-- Source `_load_ushort`: `struct.unpack("!H", x[:2])`. -/
def _load_ushort (x : List Nat) : Except PyErr (Nat × Nat) :=
  match unpackBE 2 x with
  | .error e => .error e
  | .ok n => .ok (n, 2)

/-- Source `_load_int`: `struct.unpack("!i", x[:4])`. -/
def _load_int (x : List Nat) : Except PyErr (Int × Nat) :=
  match unpackBE 4 x with
  | .error e => .error e
  | .ok n => .ok (toSigned 32 n, 4)

/-- Source `_load_uint`: `struct.unpack("!I", x[:4])`. -/
def _load_uint (x : List Nat) : Except PyErr (Nat × Nat) :=
  match unpackBE 4 x with
  | .error e => .error e
  | .ok n => .ok (n, 4)

/-- Source `_load_long`: `struct.unpack("!q", x[:8])`. -/
def _load_long (x : List Nat) : Except PyErr (Int × Nat) :=
  match unpackBE 8 x with
  | .error e => .error e
  | .ok n => .ok (toSigned 64 n, 8)

/-- Source `_load_double`: `struct.unpack("!d", x[:8])` (bit-pattern model). -/
def _load_double (x : List Nat) : Except PyErr (MValue × Nat) :=
  match unpackBE 8 x with
  | .error e => .error e
  | .ok n => .ok (.vfloat n, 8)

/-- Source `_load_huge`.  Note that `width = length-prefix + 4` and, after
`x = x[4:]` strips the prefix, the source still slices `x[:width]` —
reading 4 bytes past the end of the huge's body whenever more data
follows itin the stream. -/
def _load_huge (x : List Nat) : Except PyErr (Int × Nat) :=
  match _load_uint x with
  | .error e => .error e
  | .ok (len, _) =>
    let width := len + 4
    let x := x.drop 4
    match loadByte0 x with
    | .error e => .error e
    | .ok b0 =>
      let neg : Bool := b0 &&& 0x80 != 0
      let data := x.take width
      let data := if neg then data.map (fun b => b ^^^ 0xff) else data
      let num : Nat := data.foldl (fun n c => (n <<< 8) ||| c) 0
      if neg then .ok (-(num : Int) - 1, width) else .ok ((num : Int), width)

/-- Source `_load_shortstr`: u8 length then that many bytes (`x[1:width]`,
which silently truncates on short input, as Python slicing does). -/
def _load_shortstr (x : List Nat) : Except PyErr (List Nat × Nat) :=
  match _load_uchar x with
  | .error e => .error e
  | .ok (len, _) => .ok ((x.drop 1).take len, len + 1)

/-- Source `_load_medstr`: u16 length then bytes. -/
def _load_medstr (x : List Nat) : Except PyErr (List Nat × Nat) :=
  match _load_ushort x with
  | .error e => .error e
  | .ok (len, _) => .ok ((x.drop 2).take len, len + 2)

/-- Source `_load_longstr`: u32 length then bytes. -/
def _load_longstr (x : List Nat) : Except PyErr (List Nat × Nat) :=
  match _load_uint x with
  | .error e => .error e
  | .ok (len, _) => .ok ((x.drop 4).take len, len + 4)

/-- Source `str.decode('utf8')` on the byte-list model: the identity, guarded
by UTF-8 validity. -/
def utf8Decode (s : List Nat) : Except PyErr (List Nat) :=
  if utf8Valid s then .ok s else .error .unicodeDecodeError

/-- Source `_load_date`: u16 year, then single-byte month and day, validated
by the `datetime.date` constructor. -/
def _load_date (x : List Nat) : Except PyErr (MValue × Nat) :=
  match unpackBE 2 x with
  | .error e => .error e
  | .ok y =>
    match x.get? 2, x.get? 3 with
    | some m, some d =>
        if dateOK y m d then .ok (.vdate y m d, 4) else .error .valueRangeError
    | _, _ => .error .indexError

/-- Source `_load_time`: three single bytes then a 3-byte big-endian
microsecond field (unpacked as `"!I"` with a zero byte prepended),
validated by the `datetime.time` constructor. -/
def _load_time (x : List Nat) : Except PyErr (MValue × Nat) :=
  match x.get? 0, x.get? 1, x.get? 2 with
  | some h, some mi, some s =>
    let s3 := (x.drop 3).take 3
    if s3.length = 3 then
      let us := beNat s3
      if timeOK h mi s us then .ok (.vtime h mi s us, 6) else .error .valueRangeError
    else .error .structError
  | _, _, _ => .error .indexError

/-- Source `_load_datetime`: `datetime.combine(_load_date(x)[0],
_load_time(x[4:10])[0])`. -/
def _load_datetime (x : List Nat) : Except PyErr (MValue × Nat) :=
  match _load_date x with
  | .error e => .error e
  | .ok (d, _) =>
    match _load_time ((x.drop 4).take 6) with
    | .error e => .error e
    | .ok (t, _) =>
      match d, t with
      | .vdate y mo dd, .vtime h mi s us => .ok (.vdatetime y mo dd h mi s us, 10)
      | _, _ => .error .typeError
  
/-- Source `_load_timedelta`: three signed 32-bit fields fed to the
`datetime.timedelta` constructor, which normalizes
(0 ≤ microseconds < 10^6, 0 ≤ seconds < 86400) and rejects day
magnitudes over 999999999 with `OverflowError`. -/
def _load_timedelta (x : List Nat) : Except PyErr (MValue × Nat) :=
  match _load_int x with
  | .error e => .error e
  | .ok (d1, _) =>
    match _load_int ((x.drop 4).take 4) with
    | .error e => .error e
    | .ok (s1, _) =>
      match _load_int ((x.drop 8).take 4) with
      | .error e => .error e
      | .ok (u1, _) =>
        let total : Int := (d1 * 86400 + s1) * 1000000 + u1
        let days : Int := total.fdiv 86400000000
        let rem : Int := total - days * 86400000000
        let secs : Int := rem.fdiv 1000000
        let us : Int := rem % 1000000
        if -999999999 ≤ days ∧ days ≤ 999999999 then
          .ok (.vtimedelta days secs us, 12)
        else .error .overflowError

/-- Source `_load_decimal`: i8 sign, i16 exponent, u16 digit count, then the
packed nibbles (low nibble first); `digit_bytes[-1]` on an empty slice
raises `IndexError`, and the `decimal.Decimal` constructor rejects a
sign outside {0, 1} or digits outside 0–9. -/
def _load_decimal (x : List Nat) : Except PyErr (MValue × Nat) :=
  match _load_char (x.take 1) with
  | .error e => .error e
  | .ok (sign, _) =>
    match _load_short ((x.drop 1).take 2) with
    | .error e => .error e
    | .ok (expo, _) =>
      match _load_ushort ((x.drop 3).take 2) with
      | .error e => .error e
      | .ok (count, _) =>
        let width := 5 + (count >>> 1) + (count &&& 1)
        let digit_bytes := (x.drop 5).take (width - 5)
        match digit_bytes.getLast? with
        | none => .error .indexError
        | some last =>
          let digits :=
            (digit_bytes.dropLast.foldr (fun b acc => (b &&& 0xf) :: (b >>> 4) :: acc) []) ++
            ((last &&& 0xf) :: (if count &&& 1 = 0 then [last >>> 4] else []))
          if (sign = 0 ∨ sign = 1) ∧ digits.all (· ≤ 9) then
            .ok (.vdecimal sign.toNat digits expo, width)
          else .error .valueRangeError

/-- Source `_load_specialnum`: high nibble 1 = infinity (low bit = sign),
high nibble 2 = NaN (low bit = signaling).  On any other classifier
the source function falls through and returns `None`, which the
caller's tuple unpacking turns into a `TypeError`. -/
def _load_specialnum (x : List Nat) : Except PyErr (MValue × Nat) :=
  match loadByte0 x with
  | .error e => .error e
  | .ok b =>
    if b &&& 0xf0 = 0x10 then
      if b &&& 0x1 = 1 then .ok (.vinf true, 1) else .ok (.vinf false, 1)
    else if b &&& 0xf0 = 0x20 then
      if b &&& 0x1 = 1 then .ok (.vnan true 0 [], 1) else .ok (.vnan false 0 [], 1)
    else .error .typeError

/-- The `for i in xrange(length)` loop shared by the list loaders:
each iteration loads one element at `x[width:]` and advances `width`
by the element's width plus its tag byte.  `loads1` is the recursive
entry (`_loads` with the current fuel). -/
def loadItems (loads1 : List Nat → Except PyErr (MValue × Nat)) :
    Nat → List Nat → Nat → Except PyErr (List MValue × Nat)
  | 0, _, width => .ok ([], width)
  | n + 1, x, width =>
    match loads1 (x.drop width) with
    | .error e => .error e
    | .ok (item, iw) =>
      match loadItems loads1 n x (width + iw + 1) with
      | .error e => .error e
      | .ok (rest, w2) => .ok (item :: rest, w2)

/-- The dict loaders' loop: load a key, then a value, insert with
`result[key] = value` (last wins). -/
def loadDictItems (loads1 : List Nat → Except PyErr (MValue × Nat)) :
    Nat → List Nat → Nat → List (MValue × MValue) → Except PyErr (List (MValue × MValue) × Nat)
  | 0, _, width, acc => .ok (acc, width)
  | n + 1, x, width, acc =>
    match loads1 (x.drop width) with
    | .error e => .error e
    | .ok (key, kw) =>
      match loads1 (x.drop (width + kw + 1)) with
      | .error e => .error e
      | .ok (value, vw) =>
        loadDictItems loads1 n x (width + kw + 1 + vw + 1) (pyDictInsert acc key value)

/-- Source `_load_list`: u32 count then that many recursively loaded items. -/
def _load_list (loads1 : List Nat → Except PyErr (MValue × Nat)) (x : List Nat) :
    Except PyErr (List MValue × Nat) :=
  match _load_uint x with
  | .error e => .error e
  | .ok (length, width) => loadItems loads1 length x width

/-- Source `_load_shortlist`: u8 count then that many recursively loaded items. -/
def _load_shortlist (loads1 : List Nat → Except PyErr (MValue × Nat)) (x : List Nat) :
    Except PyErr (List MValue × Nat) :=
  match _load_uchar x with
  | .error e => .error e
  | .ok (length, width) => loadItems loads1 length x width

/-- Source `_load_medlist`: u16 count then that many recursively loaded items. -/
def _load_medlist (loads1 : List Nat → Except PyErr (MValue × Nat)) (x : List Nat) :
    Except PyErr (List MValue × Nat) :=
  match _load_ushort x with
  | .error e => .error e
  | .ok (length, width) => loadItems loads1 length x width

/-- Source `_load_dict`: u32 pair count, then alternating keys and values. -/
def _load_dict (loads1 : List Nat → Except PyErr (MValue × Nat)) (x : List Nat) :
    Except PyErr (List (MValue × MValue) × Nat) :=
  match _load_uint x with
  | .error e => .error e
  | .ok (length, width) => loadDictItems loads1 length x width []

/-- Source `_load_shortdict`: u8 pair count, then alternating keys and values. -/
def _load_shortdict (loads1 : List Nat → Except PyErr (MValue × Nat)) (x : List Nat) :
    Except PyErr (List (MValue × MValue) × Nat) :=
  match _load_uchar x with
  | .error e => .error e
  | .ok (length, width) => loadDictItems loads1 length x width []

/-- Source `_load_meddict`: u16 pair count, then alternating keys and values. -/
def _load_meddict (loads1 : List Nat → Except PyErr (MValue × Nat)) (x : List Nat) :
    Except PyErr (List (MValue × MValue) × Nat) :=
  match _load_ushort x with
  | .error e => .error e
  | .ok (length, width) => loadDictItems loads1 length x width []

/-- Source `_loads`: read the (signed) tag byte and dispatch into
`_loaders[kind]` applied to `data[1:]`; a tag outside the table (an
unknown code, or a byte with the compression bit set — compression may
not nest) raises `KeyError`.  The `fuel` argument drives the
embedding's recursion; the source recurses without any depth check. -/
def _loads (fuel : Nat) (data : List Nat) : Except PyErr (MValue × Nat) :=
  match fuel with
  | 0 => .error .stackOverflow
  | fuel + 1 =>
    match _load_char data with
    | .error e => .error e
    | .ok (kind, _) =>
      let x := data.drop 1
      match kind with
      | .ofNat n =>
        match n with
        | 0x0 => .ok (.vnull, 0)
        | 0x1 => _load_bool x
        | 0x2 =>
          (match _load_char x with
           | .error e => .error e
           | .ok (v, w) => .ok (.vint v, w))
        | 0x3 =>
          (match _load_short x with
           | .error e => .error e
           | .ok (v, w) => .ok (.vint v, w))
        | 0x4 =>
          (match _load_int x with
           | .error e => .error e
           | .ok (v, w) => .ok (.vint v, w))
        | 0x5 =>
          (match _load_long x with
           | .error e => .error e
           | .ok (v, w) => .ok (.vint v, w))
        | 0x6 =>
          (match _load_huge x with
           | .error e => .error e
           | .ok (v, w) => .ok (.vint v, w))
        | 0x7 => _load_double x
        | 0x8 =>
          (match _load_shortstr x with
           | .error e => .error e
           | .ok (s, w) => .ok (.vbytes s, w))
        | 0x9 =>
          (match _load_longstr x with
           | .error e => .error e
           | .ok (s, w) => .ok (.vbytes s, w))
        | 0xA =>
          (match _load_shortstr x with
           | .error e => .error e
           | .ok (s, w) =>
             match utf8Decode s with
             | .error e => .error e
             | .ok t => .ok (.vtext t, w))
        | 0xB =>
          (match _load_longstr x with
           | .error e => .error e
           | .ok (s, w) =>
             match utf8Decode s with
             | .error e => .error e
             | .ok t => .ok (.vtext t, w))
        | 0xC =>
          (match _load_list (_loads fuel) x with
           | .error e => .error e
           | .ok (lst, w) => .ok (.vlist lst, w))
        | 0xD =>
          (match _load_list (_loads fuel) x with
           | .error e => .error e
           | .ok (lst, w) => .ok (.vtuple lst, w))
        | 0xE =>
          (match _load_list (_loads fuel) x with
           | .error e => .error e
           | .ok (lst, w) => .ok (.vset (pySetOfList lst), w))
        | 0xF =>
          (match _load_dict (_loads fuel) x with
           | .error e => .error e
           | .ok (ps, w) => .ok (.vdict ps, w))
        | 0x10 =>
          (match _load_shortlist (_loads fuel) x with
           | .error e => .error e
           | .ok (lst, w) => .ok (.vlist lst, w))
        | 0x11 =>
          (match _load_shortlist (_loads fuel) x with
           | .error e => .error e
           | .ok (lst, w) => .ok (.vtuple lst, w))
        | 0x12 =>
          (match _load_shortlist (_loads fuel) x with
           | .error e => .error e
           | .ok (lst, w) => .ok (.vset (pySetOfList lst), w))
        | 0x13 =>
          (match _load_shortdict (_loads fuel) x with
           | .error e => .error e
           | .ok (ps, w) => .ok (.vdict ps, w))
        | 0x14 =>
          (match _load_medlist (_loads fuel) x with
           | .error e => .error e
           | .ok (lst, w) => .ok (.vlist lst, w))
        | 0x15 =>
          (match _load_medlist (_loads fuel) x with
           | .error e => .error e
           | .ok (lst, w) => .ok (.vtuple lst, w))
        | 0x16 =>
          (match _load_medlist (_loads fuel) x with
           | .error e => .error e
           | .ok (lst, w) => .ok (.vset (pySetOfList lst), w))
        | 0x17 =>
          (match _load_meddict (_loads fuel) x with
           | .error e => .error e
           | .ok (ps, w) => .ok (.vdict ps, w))
        | 0x18 =>
          (match _load_medstr x with
           | .error e => .error e
           | .ok (s, w) => .ok (.vbytes s, w))
        | 0x19 =>
          (match _load_medstr x with
           | .error e => .error e
           | .ok (s, w) =>
             match utf8Decode s with
             | .error e => .error e
             | .ok t => .ok (.vtext t, w))
        | 0x1A => _load_date x
        | 0x1B => _load_time x
        | 0x1C => _load_datetime x
        | 0x1D => _load_timedelta x
        | 0x1E => _load_decimal x
        | 0x1F => _load_specialnum x
        | _ => .error .keyError
      | .negSucc _ => .error .keyError


/-- Source `pure_python_loads(data)`: reject empty input; if the compression
bit of the first byte is set, decompress via `lzf` (a `RuntimeError`
if the module is absent) and re-enter dispatch on the cleared tag plus
the decompressed body; otherwise dispatch directly.  The embedding
passes `length + 1` fuel to `_loads`. -/
def pure_python_loads (lzf : Option LZF) (data : List Nat) : Except PyErr MValue :=
  match data with
  | [] => .error .noDataToLoad
  | b0 :: _ =>
    if b0 >>> 7 ≠ 0 then
      match lzf with
      | none => .error .lzfUnavailable
      | some L =>
        match _load_int ((data.drop 1).take 4) with
        | .error e => .error e
        | .ok (ucsize, _) =>
          let data2 := (b0 &&& 0x7f) :: L.decompress (data.drop 5) (ucsize + 1)
          match _loads (data2.length + 1) data2 with
          | .error e => .error e
          | .ok (v, _) => .ok v
    else
      match _loads (data.length + 1) data with
      | .error e => .error e
      | .ok (v, _) => .ok v

/-! ## Schema layer (`mummy/schemas.py`) -/

mutual

/-- Structural size of a schema (fuel bound for the schema-layer
recursions, all of which descend into structurally smaller schemas). -/
def schemaSize : Schema → Nat
  | .sopt s => schemaSize s + 1
  | .stup items => schemaSizeList items + 1
  | .slist items => schemaSizeList items + 1
  | .sunion opts => schemaSizeList opts + 1
  | .sdict pairs => schemaSizePairs pairs + 1
  | _ => 1

def schemaSizeList : List Schema → Nat
  | [] => 1
  | s :: r => schemaSize s + schemaSizeList r

def schemaSizePairs : List (DKey × Schema) → Nat
  | [] => 1
  | (_, v) :: r => schemaSize v + schemaSizePairs r

end

/-- The Python value an atomic-instance schema denotes (Python 2 `str`
is the byte-string type). -/
def atomVal : Atom → MValue
  | .abool b => .vbool b
  | .aint n => .vint n
  | .afloat bits => .vfloat bits
  | .astr s => .vbytes s

/-- Source `schema == message` for an atomic-instance schema (Python `==`,
numeric across types). -/
def atomEqVal (a : Atom) (m : MValue) : Bool := pyEq (atomVal a) m

/-- Source `isinstance(message, _type_validations[schema])`: `int` also
accepts `bool` (a subclass) and `long`; `datetime.date` also accepts
`datetime.datetime` (a subclass); Python 2 `str` is the byte-string
type. -/
def isinstanceOf (t : AtomType) (m : MValue) : Bool :=
  match t, m with
  | .tbool, .vbool _ => true
  | .tint, .vbool _ => true
  | .tint, .vint _ => true
  | .tfloat, .vfloat _ => true
  | .tstr, .vbytes _ => true
  | .tdate, .vdate _ _ _ => true
  | .tdate, .vdatetime _ _ _ _ _ _ _ => true
  | .ttime, .vtime _ _ _ _ => true
  | .tdatetime, .vdatetime _ _ _ _ _ _ _ => true
  | .ttimedelta, .vtimedelta _ _ _ => true
  | .tdecimal, .vdecimal _ _ _ => true
  | .tdecimal, .vinf _ => true
  | .tdecimal, .vnan _ _ _ => true
  | _, _ => false

/-- Source `type(x)`, restricted to the primitive type objects that can occur
as wildcard dict-schema keys (`none` for values of any other type). -/
def typeOfVal : MValue → Option AtomType
  | .vbool _ => some .tbool
  | .vint _ => some .tint
  | .vfloat _ => some .tfloat
  | .vbytes _ => some .tstr
  | .vdate _ _ _ => some .tdate
  | .vtime _ _ _ _ => some .ttime
  | .vdatetime _ _ _ _ _ _ _ => some .tdatetime
  | .vtimedelta _ _ _ => some .ttimedelta
  | .vdecimal _ _ _ => some .tdecimal
  | .vinf _ => some .tdecimal
  | .vnan _ _ _ => some .tdecimal
  | _ => none

/-- Source `schema[key]` for a message-value key against the schema dict's
instance keys (type-object and `OPTIONAL` keys never compare equal to a
value; schema dict keys are assumed pairwise distinct, as Python dict
keys are). -/
def schemaLookupVal : List (DKey × Schema) → MValue → Option Schema
  | [], _ => none
  | (DKey.kinst a, v) :: rest, m =>
      if pyEq m (atomVal a) then some v else schemaLookupVal rest m
  | _ :: rest, m => schemaLookupVal rest m

/-- Source `schema[t]` for a primitive type-object key. -/
def schemaLookupType : List (DKey × Schema) → AtomType → Option Schema
  | [], _ => none
  | (DKey.ktyp t2, v) :: rest, t => if t2 = t then some v else schemaLookupType rest t
  | _ :: rest, t => schemaLookupType rest t

/-- Lookup in `schema.copy()` after `schema.update(dict((k.schema, v)
for k, v in iteritems(schema) if isinstance(k, OPTIONAL)))`: an
unwrapped `OPTIONAL` entry (the last one, as later comprehension
entries overwrite earlier ones) takes precedence over a base instance
entry with an equal key. -/
def updLookupVal (pairs : List (DKey × Schema)) (m : MValue) : Option Schema :=
  let opts := pairs.filterMap (fun p =>
    match p.1 with
    | .kopt a => some (a, p.2)
    | _ => none)
  match opts.reverse.find? (fun q => pyEq m (atomVal q.1)) with
  | some q => some q.2
  | none => schemaLookupVal pairs m

/-- Source `OPTIONAL` test (`isinstance(x, OPTIONAL)`). -/
def isOptS : Schema → Bool
  | .sopt _ => true
  | _ => false

/-- The result shape of `_validate`: `(matched, info)`. -/
def VRes := Bool × Option (MValue × Schema)

/-- The fail-fast `for` loop over `(sub_schema, sub_message)` pairs
shared by the validators (`val1` is `_validate` at the current
recursion level). -/
def validatePairs (val1 : Schema → MValue → Except PyErr VRes) :
    List (Schema × MValue) → Except PyErr VRes
  | [] => .ok (true, none)
  | (ss, sm) :: rest =>
    match val1 ss sm with
    | .error e => .error e
    | .ok (matched, info) =>
      if matched then validatePairs val1 rest else .ok (false, info)

/-- Source `_validate_tuple` on a tuple message: reject over-long messages;
zip the non-`OPTIONAL` prefix of the schema with the message and
validate pairwise; then resume at index `i + 1` of
`izip(schema, message)` where `i` is the last loop index.  When the
first zip is empty the loop body never runs and the read of `i`
raises `UnboundLocalError`. -/
def validateTuple (val1 : Schema → MValue → Except PyErr VRes) (s : Schema)
    (items : List Schema) (ms : List MValue) : Except PyErr VRes :=
  if items.length < ms.length then .ok (false, some (.vtuple ms, s))
  else
    let required := List.zip (items.takeWhile (fun i => !isOptS i)) ms
    match required with
    | [] => .error .nameError
    | _ :: _ =>
      match validatePairs val1 required with
      | .error e => .error e
      | .ok (matched, info) =>
        if !matched then .ok (false, info)
        else
          let i := required.length - 1
          validatePairs val1 ((List.zip items ms).drop (i + 1))

/-- Source `_validate_dict` on a dict message: missing-required-key check,
missing-required-wildcard check, extra-key check, then per-item
validation against the `OPTIONAL`-unwrapped schema copy (instance keys
first, else the wildcard for the key's exact type). -/
def validateDictLoop (val1 : Schema → MValue → Except PyErr VRes)
    (pairs : List (DKey × Schema)) :
    List (MValue × MValue) → Except PyErr VRes
  | [] => .ok (true, none)
  | (k, sm) :: rest =>
    let sub? :=
      match updLookupVal pairs k with
      | some sub => some sub
      | none =>
        match typeOfVal k with
        | some t => schemaLookupType pairs t
        | none => none
    match sub? with
    | none => .error .keyError
    | some sub =>
      match val1 sub sm with
      | .error e => .error e
      | .ok (matched, info) =>
        if matched then validateDictLoop val1 pairs rest else .ok (false, info)

def validateDict (val1 : Schema → MValue → Except PyErr VRes) (s : Schema)
    (pairs : List (DKey × Schema)) (mps : List (MValue × MValue)) : Except PyErr VRes :=
  let requiredInst := pairs.filterMap (fun p =>
    match p.1 with
    | .kinst a => some a
    | _ => none)
  let requiredWild := pairs.filterMap (fun p =>
    match p.1 with
    | .ktyp t => some t
    | _ => none)
  if requiredInst.any (fun a => !(mps.any (fun q => pyEq q.1 (atomVal a)))) then
    .ok (false, some (.vdict mps, s))
  else if requiredWild.any (fun t => !(mps.any (fun q => typeOfVal q.1 == some t))) then
    .ok (false, some (.vdict mps, s))
  else
    let extra := mps.filter (fun q =>
      !(pairs.any (fun p =>
        match p.1 with
        | .kinst a => pyEq q.1 (atomVal a)
        | .kopt a => pyEq q.1 (atomVal a)
        | .ktyp _ => false)))
    if extra.any (fun q =>
        match typeOfVal q.1 with
        | some t => !(requiredWild.contains t)
        | none => true) then
      .ok (false, some (.vdict mps, s))
    else
      validateDictLoop val1 pairs mps

/-- Source `_validate_union`: first matching option wins; on no match the
info pair carries the whole union schema. -/
def validateUnion (val1 : Schema → MValue → Except PyErr VRes) (s : Schema) :
    List Schema → MValue → Except PyErr VRes
  | [], m => .ok (false, some (m, s))
  | o :: rest, m =>
    match val1 o m with
    | .error e => .error e
    | .ok (matched, _) =>
      if matched then .ok (true, none) else validateUnion val1 s rest m

/-- Source `_validate(schema, message) = _validators[type(schema)](schema,
message)`, structured on the schema-size budget (every recursive call
is on a structurally smaller schema).  An `OPTIONAL` object reaching
`_validate` directly raises `KeyError`: `OPTIONAL` is not a key of
`_validators`. -/
def validateGo : Nat → Schema → MValue → Except PyErr VRes
  | 0, _, _ => .error .stackOverflow
  | fuel + 1, s, m =>
    match s with
    | .inst a => .ok (if atomEqVal a m then (true, none) else (false, some (m, s)))
    | .styp t => .ok (if isinstanceOf t m then (true, none) else (false, some (m, s)))
    | .sopt _ => .error .keyError
    | .stup items =>
      (match m with
       | .vtuple ms => validateTuple (validateGo fuel) s items ms
       | _ => .ok (false, some (m, s)))
    | .slist items =>
      (match m with
       | .vlist ms =>
         (match items with
          | [] => if ms.isEmpty then .ok (true, none) else .ok (false, some (m, s))
          | sub :: _ =>
            match sub with
            | .sopt inner =>
                if ms.isEmpty then .ok (true, none)
                else validatePairs (validateGo fuel) (ms.map (fun sm => (inner, sm)))
            | _ =>
                if ms.isEmpty then .ok (false, some (m, s))
                else validatePairs (validateGo fuel) (ms.map (fun sm => (sub, sm))))
       | _ => .ok (false, some (m, s)))
    | .sdict pairs =>
      (match m with
       | .vdict mps => validateDict (validateGo fuel) s pairs mps
       | _ => .ok (false, some (m, s)))
    | .sunion opts => validateUnion (validateGo fuel) s opts m
    | .sany => .ok (true, none)
    | .srule p => .ok (if p m then (true, none) else (false, some (m, s)))

/-- Source `_validate(schema, message)`. -/
def _validate (s : Schema) (m : MValue) : Except PyErr VRes :=
  validateGo (schemaSize s) s m

/-! ## Schema self-validation (`_validate_schema`, run by the
`_validated_schema` metaclass at class-creation time) -/

/-- Source `_validate_schema(schema)`, as a boolean (the source also returns
the offending sub-schema; only validity matters here).  Bare
`OPTIONAL` objects are invalid (`OPTIONAL` is not in
`_schema_validators`), and list schemas must have length 0 or 1. -/
def validateSchemaGo : Nat → Schema → Bool
  | 0, _ => false
  | fuel + 1, s =>
    match s with
    | .inst _ => true
    | .styp _ => true
    | .sopt _ => false
    | .stup items => items.all (fun sub =>
        match sub with
        | .sopt inner => validateSchemaGo fuel inner
        | _ => validateSchemaGo fuel sub)
    | .slist items =>
      (match items with
       | [] => true
       | [sub] =>
         (match sub with
          | .sopt inner => validateSchemaGo fuel inner
          | _ => validateSchemaGo fuel sub)
       | _ => false)
    | .sdict pairs => pairs.all (fun p => validateSchemaGo fuel p.2)
    | .sunion opts => opts.all (fun sub => validateSchemaGo fuel sub)
    | .sany => true
    | .srule _ => true

def _validate_schema (s : Schema) : Bool := validateSchemaGo (schemaSize s) s

/-! ## Transform and untransform (`mummy/schemas.py`) -/

/-- Python 2 `<` between schema-key atoms: numbers compare
numerically (comparisons against NaN are `False`), strings compare
lexicographically, and numbers order before strings (Python 2
cross-type comparison). -/
def atomNum : Atom → Option NumVal
  | .abool b => some (.fin (if b then 1 else 0))
  | .aint n => some (.fin (n : ℚ))
  | .afloat bits => some (floatVal bits)
  | .astr _ => none

def strLt : List Nat → List Nat → Bool
  | [], [] => false
  | [], _ :: _ => true
  | _ :: _, [] => false
  | a :: as2, b :: bs => if a < b then true else if b < a then false else strLt as2 bs

def atomLt (a b : Atom) : Bool :=
  match atomNum a, atomNum b with
  | some x, some y => numLt x y
  | some _, none => true
  | none, some _ => false
  | none, none =>
    match a, b with
    | .astr s, .astr t => strLt s t
    | _, _ => false

/-- Source `list.sort()` modelled as insertion sort over `<` (agrees with
Python's sort whenever `<` is a strict order on the keys). -/
def insortAtom (x : Atom) : List Atom → List Atom
  | [] => [x]
  | y :: r => if atomLt x y then x :: y :: r else y :: insortAtom x r

def pySortAtoms (l : List Atom) : List Atom :=
  l.foldl (fun acc x => insortAtom x acc) []

/-- Source `_group_schema_keys(schema)`: drop the type-object (wildcard)
keys, separate the `OPTIONAL` keys (unwrapped) from the required
instance keys, and sort both groups. -/
def _group_schema_keys (pairs : List (DKey × Schema)) : List Atom × List Atom :=
  let keys := pairs.map (·.1)
  let optional := pySortAtoms (keys.filterMap (fun k =>
    match k with
    | .kopt a => some a
    | _ => none))
  let required := pySortAtoms (keys.filterMap (fun k =>
    match k with
    | .kinst a => some a
    | _ => none))
  (required, optional)

/-- Source `message[key]` / `key in message` on the dict-message model. -/
def msgLookup (mps : List (MValue × MValue)) (k : MValue) : Option MValue :=
  pyLookupF pyEq k mps

/-- The element-wise loop of `_transform`/`_untransform` over
`izip(schema, message)` (for list and tuple schemas): note `izip`
stops at the shorter sequence. -/
def transformPairs (tr : Schema → MValue → Except PyErr MValue) :
    List (Schema × MValue) → Except PyErr (List MValue)
  | [] => .ok []
  | (s, m) :: rest =>
    match tr s m with
    | .error e => .error e
    | .ok v =>
      match transformPairs tr rest with
      | .error e => .error e
      | .ok r => .ok (v :: r)

/-- The required-key loop of `_transform`:
`result.append(_transform(schema[key], message[key]))` over the sorted
required keys, against the `OPTIONAL`-unwrapped schema copy. -/
def transformReq (tr : Schema → MValue → Except PyErr MValue)
    (pairs : List (DKey × Schema)) (mps : List (MValue × MValue)) :
    List Atom → Except PyErr (List MValue)
  | [] => .ok []
  | k :: ks =>
    match updLookupVal pairs (atomVal k) with
    | none => .error .keyError
    | some sub =>
      match msgLookup mps (atomVal k) with
      | none => .error .keyError
      | some mv =>
        match tr sub mv with
        | .error e => .error e
        | .ok v =>
          match transformReq tr pairs mps ks with
          | .error e => .error e
          | .ok r => .ok (v :: r)

/-- The optional-key loop of `_transform`: the transformed value when
the key is present, else a `None` placeholder. -/
def transformOpt (tr : Schema → MValue → Except PyErr MValue)
    (pairs : List (DKey × Schema)) (mps : List (MValue × MValue)) :
    List Atom → Except PyErr (List MValue)
  | [] => .ok []
  | k :: ks =>
    match msgLookup mps (atomVal k) with
    | some mv =>
      (match updLookupVal pairs (atomVal k) with
       | none => .error .keyError
       | some sub =>
         match tr sub mv with
         | .error e => .error e
         | .ok v =>
           match transformOpt tr pairs mps ks with
           | .error e => .error e
           | .ok r => .ok (v :: r))
    | none =>
      match transformOpt tr pairs mps ks with
      | .error e => .error e
      | .ok r => .ok (.vnull :: r)

/-- The wildcard loop of `_transform`: for each remaining message key,
append the key and then
`_transform(schema[type(message[key])], message[key])` — the schema is
looked up by the type of the message *value* (a `KeyError` whenever
the value's type differs from the wildcard key type covering the
key). -/
def transformWild (tr : Schema → MValue → Except PyErr MValue)
    (pairs : List (DKey × Schema)) :
    List (MValue × MValue) → Except PyErr (List MValue)
  | [] => .ok []
  | (k, mv) :: rest =>
    let sub? :=
      match typeOfVal mv with
      | some t => schemaLookupType pairs t
      | none => none
    match sub? with
    | none => .error .keyError
    | some sub =>
      match tr sub mv with
      | .error e => .error e
      | .ok v =>
        match transformWild tr pairs rest with
        | .error e => .error e
        | .ok r => .ok (k :: v :: r)

/-- Source `_transform(schema, message)`: list and tuple schemas zip with the
message (truncating at the shorter side); dict schemas flatten to the
positional list `required ++ optional ++ wildcard pairs`; every other
schema returns the message unchanged.  Iterating a message of the
wrong shape would be a `TypeError` (transform is only reached on
validated messages). -/
def transformGo : Nat → Schema → MValue → Except PyErr MValue
  | 0, _, _ => .error .stackOverflow
  | fuel + 1, s, m =>
    match s with
    | .slist items =>
      (match m with
       | .vlist ms =>
         (match transformPairs (transformGo fuel) (List.zip items ms) with
          | .error e => .error e
          | .ok vs => .ok (.vlist vs))
       | _ => .error .typeError)
    | .stup items =>
      (match m with
       | .vtuple ms =>
         (match transformPairs (transformGo fuel) (List.zip items ms) with
          | .error e => .error e
          | .ok vs => .ok (.vtuple vs))
       | _ => .error .typeError)
    | .sdict pairs =>
      (match m with
       | .vdict mps =>
         let groups := _group_schema_keys pairs
         (match transformReq (transformGo fuel) pairs mps groups.1 with
          | .error e => .error e
          | .ok reqVals =>
            match transformOpt (transformGo fuel) pairs mps groups.2 with
            | .error e => .error e
            | .ok optVals =>
              let rest := mps.filter (fun q =>
                !(groups.1.any (fun a => pyEq q.1 (atomVal a))) &&
                !(groups.2.any (fun a => pyEq q.1 (atomVal a))))
              match transformWild (transformGo fuel) pairs rest with
              | .error e => .error e
              | .ok wildVals => .ok (.vlist (reqVals ++ optVals ++ wildVals)))
       | _ => .error .typeError)
    | _ => .ok m

/-- Source `_transform(schema, message)`. -/
def _transform (s : Schema) (m : MValue) : Except PyErr MValue :=
  transformGo (schemaSize s) s m

/-- The required-key loop of `_untransform`:
`result[key] = _untransform(schema[key], value)` over
`izip(required, message)` — against the *base* schema (the
`OPTIONAL`-unwrapping copy happens after this loop in the source). -/
def untransReqLoop (tr : Schema → MValue → Except PyErr MValue)
    (pairs : List (DKey × Schema)) (acc : List (MValue × MValue)) :
    List Atom → List MValue → Except PyErr (List (MValue × MValue))
  | [], _ => .ok acc
  | _ :: _, [] => .ok acc
  | k :: ks, v :: vs =>
    match schemaLookupVal pairs (atomVal k) with
    | none => .error .keyError
    | some sub =>
      match tr sub v with
      | .error e => .error e
      | .ok w => untransReqLoop tr pairs (pyDictInsert acc (atomVal k) w) ks vs

/-- The optional-key loop of `_untransform`: a `None` slot means the
key was absent. -/
def untransOptLoop (tr : Schema → MValue → Except PyErr MValue)
    (pairs : List (DKey × Schema)) (acc : List (MValue × MValue)) :
    List Atom → List MValue → Except PyErr (List (MValue × MValue))
  | [], _ => .ok acc
  | _ :: _, [] => .ok acc
  | k :: ks, v :: vs =>
    match v with
    | .vnull => untransOptLoop tr pairs acc ks vs
    | _ =>
      match updLookupVal pairs (atomVal k) with
      | none => .error .keyError
      | some sub =>
        match tr sub v with
        | .error e => .error e
        | .ok w => untransOptLoop tr pairs (pyDictInsert acc (atomVal k) w) ks vs

/-- The wildcard loop of `_untransform`: alternating key/value items;
`schema[type(item)]` is looked up by the type of the *value* item.  A
trailing key with no value is assigned to the loop variable but never
inserted. -/
def untransWildLoop (tr : Schema → MValue → Except PyErr MValue)
    (pairs : List (DKey × Schema)) (acc : List (MValue × MValue)) :
    List MValue → Except PyErr (List (MValue × MValue))
  | [] => .ok acc
  | [_] => .ok acc
  | k :: v :: rest =>
    let sub? :=
      match typeOfVal v with
      | some t => schemaLookupType pairs t
      | none => none
    match sub? with
    | none => .error .keyError
    | some sub =>
      match tr sub v with
      | .error e => .error e
      | .ok w => untransWildLoop tr pairs (pyDictInsert acc k w) rest

/-- Source `_untransform(schema, message)`: the inverse reshaping, driven by
the same `(required, optional)` grouping. -/
def untransformGo : Nat → Schema → MValue → Except PyErr MValue
  | 0, _, _ => .error .stackOverflow
  | fuel + 1, s, m =>
    match s with
    | .slist items =>
      (match m with
       | .vlist ms =>
         (match transformPairs (untransformGo fuel) (List.zip items ms) with
          | .error e => .error e
          | .ok vs => .ok (.vlist vs))
       | _ => .error .typeError)
    | .stup items =>
      (match m with
       | .vtuple ms =>
         (match transformPairs (untransformGo fuel) (List.zip items ms) with
          | .error e => .error e
          | .ok vs => .ok (.vtuple vs))
       | _ => .error .typeError)
    | .sdict pairs =>
      (match m with
       | .vlist ms =>
         let groups := _group_schema_keys pairs
         (match untransReqLoop (untransformGo fuel) pairs [] groups.1 ms with
          | .error e => .error e
          | .ok acc1 =>
            match untransOptLoop (untransformGo fuel) pairs acc1 groups.2
                (ms.drop groups.1.length) with
            | .error e => .error e
            | .ok acc2 =>
              match untransWildLoop (untransformGo fuel) pairs acc2
                  (ms.drop (groups.1.length + groups.2.length)) with
              | .error e => .error e
              | .ok acc3 => .ok (.vdict acc3))
       | _ => .error .typeError)
    | _ => .ok m

/-- Source `_untransform(schema, message)`. -/
def _untransform (s : Schema) (m : MValue) : Except PyErr MValue :=
  untransformGo (schemaSize s) s m

/-! ## The `Message` class -/

/-- The mutable state of a `Message` instance: its schema, the wrapped
message, and the cached validation / transformation results. -/
structure MsgState where
  SCHEMA : Schema
  message : MValue
  _validation : Option VRes
  _transformation : Option MValue

/-- Source `Message(message)`: both caches start at `None`. -/
def Message.mk0 (S : Schema) (m : MValue) : MsgState :=
  ⟨S, m, none, none⟩

/-- Source `Message.validate`: compute and cache `_validate(SCHEMA, message)`
on first use; raise `InvalidMessage(info)` when it did not match.
Stateful methods return the (possibly raised) result together with the
updated object state. -/
def Message.validate (st : MsgState) : Except PyErr Unit × MsgState :=
  match st._validation with
  | some val =>
    (if val.1 then .ok () else .error (.invalidMessage val.2), st)
  | none =>
    match _validate st.SCHEMA st.message with
    | .error e => (.error e, st)
    | .ok val =>
      let st2 := { st with _validation := some val }
      (if val.1 then .ok () else .error (.invalidMessage val.2), st2)

/-- Source `Message.transform`: validate first (so `_transform` is never
applied to a non-validating message), then compute and cache the
transformation. -/
def Message.transform (st : MsgState) : Except PyErr MValue × MsgState :=
  match Message.validate st with
  | (.error e, st2) => (.error e, st2)
  | (.ok _, st2) =>
    match st2._transformation with
    | some t => (.ok t, st2)
    | none =>
      match _transform st2.SCHEMA st2.message with
      | .error e => (.error e, st2)
      | .ok t => (.ok t, { st2 with _transformation := some t })

/-- Source `Message.dumps`: `self.validate(); return dumps(self.transform())`. -/
def Message.dumps (lzf : Option LZF) (st : MsgState) : Except PyErr (List Nat) × MsgState :=
  match Message.validate st with
  | (.error e, st2) => (.error e, st2)
  | (.ok _, st2) =>
    match Message.transform st2 with
    | (.error e, st3) => (.error e, st3)
    | (.ok t, st3) => (pure_python_dumps lzf t 0 true, st3)

/-- Source `Message.untransform` (a classmethod). -/
def Message.untransform (S : Schema) (m : MValue) : Except PyErr MValue :=
  _untransform S m

/-- Source `Message.loads` (a classmethod): decode, untransform, wrap. -/
def Message.loads (lzf : Option LZF) (S : Schema) (data : List Nat) : Except PyErr MsgState :=
  match pure_python_loads lzf data with
  | .error e => .error e
  | .ok v =>
    match _untransform S v with
    | .error e => .error e
    | .ok m => .ok (Message.mk0 S m)

/-! ## Claim-side definitions and witnesses' fixtures -/

/-- The tag the specification assigns to an integer: the narrowest of
int8/int16/int32/int64 covering it, `huge` (0x06) exactly when
`|x| ≥ 2^63`. -/
def intTagSpec (x : Int) : Nat :=
  if -(2 ^ 7) ≤ x ∧ x < 2 ^ 7 then 0x02
  else if -(2 ^ 15) ≤ x ∧ x < 2 ^ 15 then 0x03
  else if -(2 ^ 31) ≤ x ∧ x < 2 ^ 31 then 0x04
  else if -(2 ^ 63) ≤ x ∧ x < 2 ^ 63 then 0x05
  else 0x06

/-- A chain of `n + 1` nested singleton lists ending in an empty list:
`nestVal n` has container-nesting depth `n + 1`. -/
def nestVal : Nat → MValue
  | 0 => .vlist []
  | n + 1 => .vlist [nestVal n]

/-- The wire form of `nestVal n`: short-list tags with singleton
counts, ending in an empty short list. -/
def nestStream : Nat → List Nat
  | 0 => [0x10, 0x00]
  | n + 1 => 0x10 :: 0x01 :: nestStream n

/-- An `lzf` stand-in whose compression always fails to fit (used to
instantiate witnesses). -/
def lzfNone : LZF := ⟨fun _ _ => none, fun _ _ => []⟩

/-- An `lzf` stand-in that always "compresses" to a fixed single byte
(used to exercise the envelope path in witnesses). -/
def lzfConst : LZF := ⟨fun _ _ => some [42], fun _ _ => []⟩

/-! # Theorems -/

/-! ## Small inversion helpers -/

theorem nestStream_length (n : Nat) : (nestStream n).length = 2 * n + 2 := by
  induction n with
  | zero => rfl
  | succ n ih => simp [nestStream, ih]; omega

theorem nestStream_head (n : Nat) : ∃ t, nestStream n = 0x10 :: t := by
  cases n with
  | zero => exact ⟨[0x00], rfl⟩
  | succ n => exact ⟨0x01 :: nestStream n, rfl⟩

/-- Decoding the nested stream: one fuel unit per nesting level
suffices, and the decoder returns the nested value with its exact
width. -/
theorem loads_nestStream (n : Nat) : ∀ f rest, n + 1 ≤ f →
    _loads f (nestStream n ++ rest) = .ok (nestVal n, 2 * n + 1) := by
  induction n with
  | zero =>
    intro f rest hf
    match f, hf with
    | f + 1, _ => rfl
  | succ n ih =>
    intro f rest hf
    match f, hf with
    | f + 1, hf =>
      have hrec := ih f rest (by omega)
      show _loads (f + 1) (0x10 :: 0x01 :: (nestStream n ++ rest)) = _
      simp only [_loads, _load_char, loadByte0, _load_shortlist, _load_uchar, List.drop]
      norm_num
      simp only [loadItems, List.drop_one, List.tail_cons, List.drop_zero]
      rw [hrec]
      simp only [nestVal]
      have harith : 1 + (2 * n + 1) + 1 = 2 * (n + 1) + 1 := by omega
      rw [harith]

/-- The nested stream decodes at every depth (the pure-Python decoder
has no depth guard). -/
theorem nest_decodes (n : Nat) : pure_python_loads none (nestStream n) = .ok (nestVal n) := by
  obtain ⟨t, ht⟩ := nestStream_head n
  have hlen : (nestStream n).length = 2 * n + 2 := nestStream_length n
  have h := loads_nestStream n ((nestStream n).length + 1) [] (by omega)
  rw [List.append_nil] at h
  rw [ht] at h hlen ⊢
  simp only [pure_python_loads]
  rw [if_neg (by decide : ¬((0x10 : Nat) >>> 7 ≠ 0))]
  rw [h]

/-- Serializing the nested value: each level consumes one unit of the
depth budget and emits a singleton short list. -/
theorem dumps_nestVal (n : Nat) : ∀ f c, n < f →
    dumpsRec none f (nestVal n) c = .ok (nestStream n) := by
  induction n with
  | zero =>
    intro f c hf
    match f, hf with
    | f + 1, _ => rfl
  | succ n ih =>
    intro f c hf
    match f, hf with
    | f + 1, hf =>
      have hrec := ih f false (by omega)
      show dumpsRec none (f + 1) (.vlist [nestVal n]) c = _
      simp only [dumpsRec, dumpBody, dumpItems, hrec, List.append_nil]
      norm_num [_dump_uchar, _dump_char, _get_type_code, nestStream]
      decide

/-! ## C1: the round-trip claim versus `_load_huge`'s over-read -/

/-- C1: `pure_python_loads(pure_python_dumps(v)) == v` fails on the
value `[2^63, 0]`: `_load_huge` reads 4 bytes past the huge's body
(its `width` still counts the already-stripped length prefix), so the
nested huge followed by further data decodes to `2^79 + 512` instead
of `2^63`. -/
theorem C1_huge_roundtrip_bug :
    pure_python_dumps none (.vlist [.vint (2 ^ 63), .vint 0]) 0 true =
      .ok [0x10, 0x02, 0x06, 0x00, 0x00, 0x00, 0x09,
           0x00, 0x80, 0x00, 0x00, 0x00, 0x00, 0x00, 0x00, 0x00, 0x02, 0x00] ∧
    pure_python_loads none [0x10, 0x02, 0x06, 0x00, 0x00, 0x00, 0x09,
           0x00, 0x80, 0x00, 0x00, 0x00, 0x00, 0x00, 0x00, 0x00, 0x02, 0x00] =
      .ok (.vlist [.vint (2 ^ 79 + 512), .vint 0]) ∧
    MValue.vlist [.vint (2 ^ 79 + 512), .vint 0] ≠ MValue.vlist [.vint (2 ^ 63), .vint 0] := by
  refine ⟨rfl, rfl, ?_⟩
  intro h
  injection h with h1
  injection h1 with h2 _
  injection h2 with h3
  omega

/-! ## C2: the schema round-trip claim versus list truncation -/

/-- C2: for the (schema-valid) list schema `[int]` and the validating
message `[1, 2]`, `_transform` zips the message with the one-element
schema list and so truncates it to `[1]`; `_untransform` returns
`[1] ≠ [1, 2]`.  The schema round-trip fails. -/
theorem C2_list_truncation :
    _validate_schema (.slist [.styp .tint]) = true ∧
    _validate (.slist [.styp .tint]) (.vlist [.vint 1, .vint 2]) = .ok (true, none) ∧
    _transform (.slist [.styp .tint]) (.vlist [.vint 1, .vint 2]) = .ok (.vlist [.vint 1]) ∧
    _untransform (.slist [.styp .tint]) (.vlist [.vint 1]) = .ok (.vlist [.vint 1]) ∧
    MValue.vlist [.vint 1] ≠ MValue.vlist [.vint 1, .vint 2] := by
  refine ⟨rfl, rfl, rfl, rfl, ?_⟩
  intro h
  injection h with h1
  injection h1 with _ h2
  exact List.noConfusion h2

/-! ## C6: totality of `_validate` versus the unbound loop variable -/

/-- C6: `_validate` is not total: on the empty tuple schema with the
empty tuple message (and likewise on any tuple schema whose
required-prefix zip with the message is empty) the loop variable `i`
in `_validate_tuple` is never assigned and the subsequent
`islice(..., i + 1, None)` raises `UnboundLocalError` instead of
returning a `(matched, info)` pair. -/
theorem C6_validate_raises :
    _validate (.stup []) (.vtuple []) = .error .nameError ∧
    _validate (.stup [.styp .tint]) (.vtuple []) = .error .nameError := by
  exact ⟨rfl, rfl⟩

/-! ## C7: tuple-length enforcement -/

/-- C7: a 1-tuple message validates against the tuple schema
`(int, int)`: `izip` stops at the shorter of schema and message, so
the missing entry for the second (non-`OPTIONAL`) sub-schema is never
checked and validation returns `(True, None)`, contrary to the claim
(and to the module docstring's same-length assertion). -/
theorem C7_short_tuple_validates :
    _validate (.stup [.styp .tint, .styp .tint]) (.vtuple [.vint 1]) = .ok (true, none) := rfl

/-! ## C9: the bool loader accepts any body byte -/

/-- C9: `_load_bool` is `bool(ord(x[0]))`: decoding tag 0x01 with any
body byte succeeds, giving `True` for every nonzero byte and `False`
exactly for 0x00; no invalid-body error is raised. -/
theorem C9_bool_any_byte (b : Nat) (rest : List Nat) (_hb : b < 256) :
    pure_python_loads none (0x01 :: b :: rest) = .ok (.vbool (b != 0)) := rfl

/-- Witness for C9 at the non-canonical body byte 0x07. -/
theorem C9_bool_any_byte_witness :
    (7 : Nat) < 256 ∧ pure_python_loads none [0x01, 0x07] = .ok (.vbool true) :=
  ⟨by decide, C9_bool_any_byte 7 [] (by decide)⟩

/-! ## C3: narrowest integer tag selection -/

/-- C3: `_get_type_code` assigns every integer the tag the claim
specifies (narrowest width, boundaries exactly at ±2^7, ±2^15, ±2^31,
±2^63), and the huge tag 0x06 is chosen exactly for `|x| ≥ 2^63`. -/
theorem C3_int_tag_selection (x : Int) :
    _get_type_code (.vint x) = intTagSpec x ∧
    (_get_type_code (.vint x) = 0x06 ↔ (x < -(2 ^ 63) ∨ 2 ^ 63 ≤ x)) := by
  constructor
  · simp only [_get_type_code, intTagSpec]
    norm_num
  · simp only [_get_type_code]
    split_ifs with h1 h2 h3 h4 <;> norm_num <;> omega

/-! ## C10: `Message` on a non-validating message -/

/-- C10: when `_validate(SCHEMA, message)` returns `(False, info)`,
both `Message.transform` and `Message.dumps` raise
`InvalidMessage(info)` (the offending (sub-message, sub-schema) pair);
the validation result is cached but no transformation is computed or
cached (`_transformation` stays `None`), so `_transform` is never
applied to a non-validating message. -/
theorem C10_invalid_message (S : Schema) (m : MValue) (info : Option (MValue × Schema))
    (lzf : Option LZF) (h : _validate S m = .ok (false, info)) :
    Message.transform (Message.mk0 S m) =
      (.error (.invalidMessage info), ⟨S, m, some (false, info), none⟩) ∧
    Message.dumps lzf (Message.mk0 S m) =
      (.error (.invalidMessage info), ⟨S, m, some (false, info), none⟩) := by
  have hval : Message.validate (Message.mk0 S m) =
      (.error (.invalidMessage info), ⟨S, m, some (false, info), none⟩) := by
    simp [Message.validate, Message.mk0, h]
  constructor
  · simp [Message.transform, hval]
  · simp [Message.dumps, Message.transform, hval]

/-- Witness for C10: the integer-type schema with a `None` message. -/
theorem C10_invalid_message_witness :
    _validate (.styp .tint) .vnull = .ok (false, some (.vnull, .styp .tint)) ∧
    Message.transform (Message.mk0 (.styp .tint) .vnull) =
      (.error (.invalidMessage (some (.vnull, .styp .tint))),
       ⟨.styp .tint, .vnull, some (false, some (.vnull, .styp .tint)), none⟩) ∧
    Message.dumps none (Message.mk0 (.styp .tint) .vnull) =
      (.error (.invalidMessage (some (.vnull, .styp .tint))),
       ⟨.styp .tint, .vnull, some (false, some (.vnull, .styp .tint)), none⟩) := by
  refine ⟨rfl, ?_, ?_⟩
  · exact (C10_invalid_message (.styp .tint) .vnull (some (.vnull, .styp .tint)) none rfl).1
  · exact (C10_invalid_message (.styp .tint) .vnull (some (.vnull, .styp .tint)) none rfl).2

/-! ## C5: the compression envelope -/

/-- C5: with compression enabled, `pure_python_dumps` attempts LZF only
when the body exceeds 5 bytes, bounds the output to `body_len - 5`
bytes, emits `(tag | 0x80) ++ i32(body_len) ++ compressed_body` when
compression succeeded, and otherwise falls back to the plain
`tag ++ body` with no error.  (`hne` records that `lzf.compress` never
returns an empty byte string on success; the body-length bound makes
the signed 32-bit length prefix well-defined.) -/
theorem C5_compression_envelope (L : LZF) (v : MValue) (d : Nat) (data : List Nat)
    (hd : d < MAX_DEPTH)
    (hbody : dumpBody (fun w => pure_python_dumps (some L) w (d + 1) false) v = .ok data)
    (hlen : data.length < 2147483648)
    (hne : ∀ c, L.compress data (data.length - 5) = some c → c ≠ []) :
    pure_python_dumps (some L) v d true =
      .ok (if 5 < data.length then
             match L.compress data (data.length - 5) with
             | some c =>
                 _dump_char ((_get_type_code v ||| 0x80 : Nat) : Int) ++
                   natBytesBE 4 data.length ++ c
             | none => _dump_char ((_get_type_code v : Nat) : Int) ++ data
           else _dump_char ((_get_type_code v : Nat) : Int) ++ data) := by
  simp only [pure_python_dumps] at hbody ⊢
  have hf : MAX_DEPTH - d = (MAX_DEPTH - (d + 1)) + 1 := by
    simp only [MAX_DEPTH] at hd ⊢
    omega
  rw [hf]
  simp only [dumpsRec]
  rw [hbody]
  by_cases h5 : 5 < data.length
  · simp only [h5, true_and, if_true]
    cases hc : L.compress data (data.length - 5) with
    | none => rfl
    | some c =>
      have hcne : c.isEmpty = false := by
        have := hne c hc
        cases c with
        | nil => exact absurd rfl this
        | cons a t => rfl
      simp only [hcne, Bool.false_eq_true, if_false]
      have hint : _dump_int (data.length : Int) = .ok (natBytesBE 4 data.length) := by
        have hb : -((2 : Int) ^ (8 * 4 - 1)) ≤ (data.length : Int) ∧
            (data.length : Int) < (2 : Int) ^ (8 * 4 - 1) := by
          have h31 : ((2 : Int) ^ (8 * 4 - 1)) = 2147483648 := by norm_num
          rw [h31]
          omega
        simp only [_dump_int, packSigned, if_pos hb]
        have hcast : (((data.length : Int)) % ((2 ^ (8 * 4) : Nat) : Int)).toNat = data.length := by
          have h32 : ((2 ^ (8 * 4) : Nat) : Int) = 4294967296 := by norm_num
          rw [h32]
          omega
        simp only [hcast]
      rw [hint]
  · simp only [h5, and_false, if_false]

/-- Witness for C5: a 6-byte byte string (7-byte body) with an `lzf`
whose compression always produces the single byte 42. -/
theorem C5_compression_envelope_witness :
    pure_python_dumps (some lzfConst) (.vbytes [1, 2, 3, 4, 5, 6]) 0 true =
      .ok [0x88, 0x00, 0x00, 0x00, 0x07, 42] := by
  have h := C5_compression_envelope lzfConst (.vbytes [1, 2, 3, 4, 5, 6]) 0
      [6, 1, 2, 3, 4, 5, 6] (by decide) rfl (by decide)
      (by intro c hc; cases hc; simp)
  rw [h]
  rfl

/-! ## C8: atomic-instance positions under `_transform` -/

theorem schemaSizePairs_pos (l : List (DKey × Schema)) : 1 ≤ schemaSizePairs l := by
  cases l with
  | nil => simp [schemaSizePairs]
  | cons p r =>
    cases p with
    | mk k v =>
      have : 1 ≤ schemaSize v := by
        cases v <;> simp only [schemaSize] <;> omega
      simp only [schemaSizePairs]
      omega

/-- Inverting the dict branch of `_transform`: a successful transform
of a dict message is the required values followed by the optional and
wildcard segments. -/
theorem transform_dict_inv (n : Nat) (pairs : List (DKey × Schema))
    (mps : List (MValue × MValue)) (r : MValue)
    (h : transformGo (n + 1) (.sdict pairs) (.vdict mps) = .ok r) :
    ∃ reqVals tail,
      transformReq (transformGo n) pairs mps (_group_schema_keys pairs).1 = .ok reqVals ∧
      r = .vlist (reqVals ++ tail) := by
  simp only [transformGo] at h
  cases hreq : transformReq (transformGo n) pairs mps (_group_schema_keys pairs).1 with
  | error e => rw [hreq] at h; exact absurd h (by simp)
  | ok reqVals =>
    rw [hreq] at h
    cases hopt : transformOpt (transformGo n) pairs mps (_group_schema_keys pairs).2 with
    | error e => rw [hopt] at h; exact absurd h (by simp)
    | ok optVals =>
      rw [hopt] at h
      cases hwild : transformWild (transformGo n) pairs
          (mps.filter (fun q =>
            !((_group_schema_keys pairs).1.any (fun a => pyEq q.1 (atomVal a))) &&
            !((_group_schema_keys pairs).2.any (fun a => pyEq q.1 (atomVal a))))) with
      | error e => rw [hwild] at h; exact absurd h (by simp)
      | ok wildVals =>
        rw [hwild] at h
        refine ⟨reqVals, optVals ++ wildVals, rfl, ?_⟩
        have := h
        simp only [Except.ok.injEq] at this
        rw [← this]
        simp [List.append_assoc]

/-- Inverting the required-keys loop of `_transform` positionally: the
i-th required key contributes the i-th entry of the result, obtained
by transforming its message value against its (updated-schema)
sub-schema. -/
theorem transformReq_get (tr : Schema → MValue → Except PyErr MValue)
    (pairs : List (DKey × Schema)) (mps : List (MValue × MValue)) :
    ∀ (ks : List Atom) (vs : List MValue) (i : Nat) (k : Atom) (sub : Schema) (mv w : MValue),
      transformReq tr pairs mps ks = .ok vs →
      ks.get? i = some k →
      updLookupVal pairs (atomVal k) = some sub →
      msgLookup mps (atomVal k) = some mv →
      tr sub mv = .ok w →
      vs.get? i = some w := by
  intro ks
  induction ks with
  | nil =>
    intro vs i k sub mv w hok hget
    simp at hget
  | cons k0 ks ih =>
    intro vs i k sub mv w hok hget hlook hmsg htr
    simp only [transformReq] at hok
    split at hok
    · simp at hok
    · rename_i sub0 hu
      split at hok
      · simp at hok
      · rename_i mv0 hm
        split at hok
        · simp at hok
        · rename_i v0 ht0
          split at hok
          · simp at hok
          · rename_i r hr
            simp only [Except.ok.injEq] at hok
            subst hok
            cases i with
            | zero =>
              simp only [List.get?] at hget
              injection hget with hk0
              subst hk0
              rw [hu] at hlook
              injection hlook with hsub
              subst hsub
              rw [hm] at hmsg
              injection hmsg with hmv
              subst hmv
              rw [ht0] at htr
              injection htr with hw
              subst hw
              rfl
            | succ i =>
              simp only [List.get?] at hget ⊢
              exact ih r i k sub mv w hr hget hlook hmsg htr

/-- C8 (amended): for a dict schema, the position of a required key
whose (updated-schema) sub-schema is an atomic instance holds the
message value itself, passed through unchanged — not a `null`
placeholder. -/
theorem C8_amended (pairs : List (DKey × Schema)) (mps : List (MValue × MValue))
    (i : Nat) (k a : Atom) (mv : MValue) (res : List MValue)
    (hk : (_group_schema_keys pairs).1.get? i = some k)
    (hs : updLookupVal pairs (atomVal k) = some (.inst a))
    (hm : msgLookup mps (atomVal k) = some mv)
    (ht : _transform (.sdict pairs) (.vdict mps) = .ok (.vlist res)) :
    res.get? i = some mv := by
  simp only [_transform, schemaSize] at ht
  obtain ⟨reqVals, tail, hreq, hr⟩ := transform_dict_inv _ pairs mps _ ht
  -- the inst sub-schema transforms to the message itself
  obtain ⟨n0, hn0⟩ : ∃ n0, schemaSizePairs pairs = n0 + 1 := by
    have := schemaSizePairs_pos pairs
    exact ⟨schemaSizePairs pairs - 1, by omega⟩
  have htr : transformGo (schemaSizePairs pairs) (.inst a) mv = .ok mv := by
    rw [hn0]
    rfl
  have hget := transformReq_get (transformGo (schemaSizePairs pairs)) pairs mps
      (_group_schema_keys pairs).1 reqVals i k (.inst a) mv mv hreq hk hs hm htr
  injection hr with hlist
  subst hlist
  have hlt : i < reqVals.length := by
    have := List.get?_eq_some.mp hget
    obtain ⟨hl, _⟩ := this
    exact hl
  rw [List.get?_append hlt]
  exact hget

/-- Counterexample for C8: the dict schema `{"a": 5}` applied to the
validating message `{"a": 5}` transforms to `[5]`, not to `[None]`:
the atomic-instance position holds the value, not null. -/
theorem C8_counterexample :
    _validate (.sdict [(.kinst (.astr [97]), .inst (.aint 5))])
      (.vdict [(.vbytes [97], .vint 5)]) = .ok (true, none) ∧
    _transform (.sdict [(.kinst (.astr [97]), .inst (.aint 5))])
      (.vdict [(.vbytes [97], .vint 5)]) = .ok (.vlist [.vint 5]) ∧
    MValue.vint 5 ≠ MValue.vnull := by
  refine ⟨rfl, rfl, ?_⟩
  intro h
  exact MValue.noConfusion h

/-- Witness for C8 (amended): schema `{1: 7}` with message `{1: 7}`. -/
theorem C8_amended_witness :
    (_group_schema_keys [(DKey.kinst (.aint 1), Schema.inst (.aint 7))]).1.get? 0 =
      some (.aint 1) ∧
    updLookupVal [(DKey.kinst (.aint 1), Schema.inst (.aint 7))] (atomVal (.aint 1)) =
      some (.inst (.aint 7)) ∧
    msgLookup [(.vint 1, .vint 7)] (atomVal (.aint 1)) = some (.vint 7) ∧
    _transform (.sdict [(DKey.kinst (.aint 1), Schema.inst (.aint 7))])
      (.vdict [(.vint 1, .vint 7)]) = .ok (.vlist [.vint 7]) ∧
    [MValue.vint 7].get? 0 = some (.vint 7) := by
  refine ⟨rfl, rfl, rfl, rfl, ?_⟩
  exact C8_amended [(DKey.kinst (.aint 1), Schema.inst (.aint 7))] [(.vint 1, .vint 7)]
    0 (.aint 1) (.aint 7) (.vint 7) [.vint 7] rfl rfl rfl rfl

/-! ## C4: the depth guard -/

theorem packUnsigned_ok (w n : Nat) (h : n < 2 ^ (8 * w)) :
    packUnsigned w n = .ok (natBytesBE w n) := by
  simp [packUnsigned, h]

theorem packSigned_ok (w : Nat) (x : Int) (h1 : -(2 ^ (8 * w - 1)) ≤ x)
    (h2 : x < 2 ^ (8 * w - 1)) :
    packSigned w x = .ok (natBytesBE w (x % (2 ^ (8 * w) : Nat)).toNat) := by
  simp [packSigned, h1, h2]

theorem hugeBytesLE_ne_nil (x : Nat) (hx : x ≠ 0) : hugeBytesLE x ≠ [] := by
  match x, hx with
  | m + 1, _ => simp [hugeBytesLE, hugeBytesLEF]

theorem dump_huge_ok (x : Int) (hwf : hugeLenOK x = true) (hx : hugeMag x ≠ 0) :
    ∃ bs, _dump_huge x = .ok bs := by
  have hne := hugeBytesLE_ne_nil (hugeMag x) hx
  have hlen : (hugeBytesLE (hugeMag x)).length < 4294967295 := by
    simpa [hugeLenOK] using hwf
  by_cases hneg : x < 0
  · simp only [_dump_huge, if_pos hneg]
    cases hc : ((hugeBytesLE (hugeMag x)).map (fun b => b ^^^ 0xff)).reverse with
    | nil =>
      exfalso
      have hl := congrArg List.length hc
      simp only [List.length_reverse, List.length_map, List.length_nil] at hl
      exact hne (List.length_eq_zero.mp hl)
    | cons b t =>
      have hlc : t.length + 1 = (hugeBytesLE (hugeMag x)).length := by
        have hl := congrArg List.length hc
        simp only [List.length_reverse, List.length_map, List.length_cons] at hl
        omega
      split
      · rename_i heq
        exact absurd heq (by simp)
      rename_i b1 t1 heq
      injection heq with hb1 ht1
      subst hb1
      subst ht1
      split_ifs with h1 h2
      · rw [show ((255 :: b :: t : List Nat).length) = t.length + 2 from by simp,
            _dump_uint, packUnsigned_ok 4 (t.length + 2) (by norm_num; omega)]
        exact ⟨_, rfl⟩
      · rw [show ((0 :: b :: t : List Nat).length) = t.length + 2 from by simp,
            _dump_uint, packUnsigned_ok 4 (t.length + 2) (by norm_num; omega)]
        exact ⟨_, rfl⟩
      · rw [show ((b :: t : List Nat).length) = t.length + 1 from by simp,
            _dump_uint, packUnsigned_ok 4 (t.length + 1) (by norm_num; omega)]
        exact ⟨_, rfl⟩
  · simp only [_dump_huge, if_neg hneg]
    cases hc : (hugeBytesLE (hugeMag x)).reverse with
    | nil =>
      exfalso
      have hl := congrArg List.length hc
      simp only [List.length_reverse, List.length_nil] at hl
      exact hne (List.length_eq_zero.mp hl)
    | cons b t =>
      have hlc : t.length + 1 = (hugeBytesLE (hugeMag x)).length := by
        have hl := congrArg List.length hc
        simp only [List.length_reverse, List.length_cons] at hl
        omega
      split
      · rename_i heq
        exact absurd heq (by simp)
      rename_i b1 t1 heq
      injection heq with hb1 ht1
      subst hb1
      subst ht1
      split_ifs with h1 h2
      · rw [show ((255 :: b :: t : List Nat).length) = t.length + 2 from by simp,
            _dump_uint, packUnsigned_ok 4 (t.length + 2) (by norm_num; omega)]
        exact ⟨_, rfl⟩
      · rw [show ((0 :: b :: t : List Nat).length) = t.length + 2 from by simp,
            _dump_uint, packUnsigned_ok 4 (t.length + 2) (by norm_num; omega)]
        exact ⟨_, rfl⟩
      · rw [show ((b :: t : List Nat).length) = t.length + 1 from by simp,
            _dump_uint, packUnsigned_ok 4 (t.length + 1) (by norm_num; omega)]
        exact ⟨_, rfl⟩

theorem dumpItems_ok (fuel : Nat)
    (hf : ∀ v c, wfValue v = true → maxNodeDepth v < fuel →
      ∃ bs, dumpsRec none fuel v c = .ok bs) :
    ∀ items, wfItems items = true → depthItems items ≤ fuel →
      ∃ bs, dumpItems (fun v => dumpsRec none fuel v false) items = .ok bs := by
  intro items
  induction items with
  | nil => intro _ _; exact ⟨[], rfl⟩
  | cons v rest ih =>
    intro hwf hd
    obtain ⟨hwv, hwr⟩ : wfValue v = true ∧ wfItems rest = true := by
      simpa [wfItems, Bool.and_eq_true] using hwf
    simp only [depthItems, Nat.max_le] at hd
    obtain ⟨b1, hb1⟩ := hf v false hwv (by omega)
    obtain ⟨b2, hb2⟩ := ih hwr (by omega)
    exact ⟨b1 ++ b2, by simp only [dumpItems, hb1, hb2]⟩

theorem dumpItems_err (fuel : Nat)
    (hfo : ∀ v c, wfValue v = true → maxNodeDepth v < fuel →
      ∃ bs, dumpsRec none fuel v c = .ok bs)
    (hfe : ∀ v c, wfValue v = true → fuel ≤ maxNodeDepth v →
      dumpsRec none fuel v c = .error .maxDepthExceeded) :
    ∀ items, wfItems items = true → fuel < depthItems items →
      dumpItems (fun v => dumpsRec none fuel v false) items = .error .maxDepthExceeded := by
  intro items
  induction items with
  | nil => intro _ hd; exact absurd hd (by simp [depthItems])
  | cons v rest ih =>
    intro hwf hd
    obtain ⟨hwv, hwr⟩ : wfValue v = true ∧ wfItems rest = true := by
      simpa [wfItems, Bool.and_eq_true] using hwf
    simp only [depthItems] at hd
    rcases lt_max_iff.mp hd with h | h
    · have hverr := hfe v false hwv (by omega)
      simp only [dumpItems, hverr]
    · by_cases hv : maxNodeDepth v < fuel
      · obtain ⟨b1, hb1⟩ := hfo v false hwv hv
        have := ih hwr h
        simp only [dumpItems, hb1, this]
      · have hverr := hfe v false hwv (by omega)
        simp only [dumpItems, hverr]

theorem dumpPairs_ok (fuel : Nat)
    (hf : ∀ v c, wfValue v = true → maxNodeDepth v < fuel →
      ∃ bs, dumpsRec none fuel v c = .ok bs) :
    ∀ pairs, wfMPairs pairs = true → depthPairs pairs ≤ fuel →
      ∃ bs, dumpPairs (fun v => dumpsRec none fuel v false) pairs = .ok bs := by
  intro pairs
  induction pairs with
  | nil => intro _ _; exact ⟨[], rfl⟩
  | cons p rest ih =>
    obtain ⟨k, v⟩ := p
    intro hwf hd
    obtain ⟨hwk, hwv, hwr⟩ : wfValue k = true ∧ wfValue v = true ∧ wfMPairs rest = true := by
      simpa [wfMPairs, Bool.and_eq_true, and_assoc] using hwf
    simp only [depthPairs, Nat.max_le] at hd
    obtain ⟨b1, hb1⟩ := hf k false hwk (by omega)
    obtain ⟨b2, hb2⟩ := hf v false hwv (by omega)
    obtain ⟨b3, hb3⟩ := ih hwr (by omega)
    exact ⟨b1 ++ b2 ++ b3, by simp only [dumpPairs, hb1, hb2, hb3]⟩

theorem dumpPairs_err (fuel : Nat)
    (hfo : ∀ v c, wfValue v = true → maxNodeDepth v < fuel →
      ∃ bs, dumpsRec none fuel v c = .ok bs)
    (hfe : ∀ v c, wfValue v = true → fuel ≤ maxNodeDepth v →
      dumpsRec none fuel v c = .error .maxDepthExceeded) :
    ∀ pairs, wfMPairs pairs = true → fuel < depthPairs pairs →
      dumpPairs (fun v => dumpsRec none fuel v false) pairs = .error .maxDepthExceeded := by
  intro pairs
  induction pairs with
  | nil => intro _ hd; exact absurd hd (by simp [depthPairs])
  | cons p rest ih =>
    obtain ⟨k, v⟩ := p
    intro hwf hd
    obtain ⟨hwk, hwv, hwr⟩ : wfValue k = true ∧ wfValue v = true ∧ wfMPairs rest = true := by
      simpa [wfMPairs, Bool.and_eq_true, and_assoc] using hwf
    simp only [depthPairs] at hd
    by_cases hk : maxNodeDepth k < fuel
    · obtain ⟨b1, hb1⟩ := hfo k false hwk hk
      by_cases hv : maxNodeDepth v < fuel
      · obtain ⟨b2, hb2⟩ := hfo v false hwv hv
        have hrest : fuel < depthPairs rest := by
          rcases lt_max_iff.mp hd with h | h
          · rcases lt_max_iff.mp h with h2 | h2 <;> omega
          · exact h
        have := ih hwr hrest
        simp only [dumpPairs, hb1, hb2, this]
      · have hverr := hfe v false hwv (by omega)
        simp only [dumpPairs, hb1, hverr]
    · have hkerr := hfe k false hwk (by omega)
      simp only [dumpPairs, hkerr]

/-- Under well-formedness, every body dumper succeeds provided the
children fit in the remaining depth budget. -/
theorem dumpBody_ok (fuel : Nat)
    (hf : ∀ v c, wfValue v = true → maxNodeDepth v < fuel →
      ∃ bs, dumpsRec none fuel v c = .ok bs)
    (item : MValue) (hwf : wfValue item = true) (hd : maxNodeDepth item ≤ fuel) :
    ∃ bs, dumpBody (fun v => dumpsRec none fuel v false) item = .ok bs := by
  cases item with
  | vnull => exact ⟨_, rfl⟩
  | vbool b => exact ⟨_, rfl⟩
  | vfloat bits => exact ⟨_, rfl⟩
  | vinf neg => exact ⟨_, rfl⟩
  | vnan sg sn p => exact ⟨_, rfl⟩
  | vint x =>
    simp only [dumpBody]
    split_ifs with h1 h2 h3 h4
    · exact ⟨_, rfl⟩
    · have hp : _dump_short x = .ok (natBytesBE 2 (x % (2 ^ (8 * 2) : Nat)).toNat) :=
        packSigned_ok 2 x (by norm_num; omega) (by norm_num; omega)
      rw [hp]; exact ⟨_, rfl⟩
    · have hp : _dump_int x = .ok (natBytesBE 4 (x % (2 ^ (8 * 4) : Nat)).toNat) :=
        packSigned_ok 4 x (by norm_num; omega) (by norm_num; omega)
      rw [hp]; exact ⟨_, rfl⟩
    · have hp : _dump_long x = .ok (natBytesBE 8 (x % (2 ^ (8 * 8) : Nat)).toNat) :=
        packSigned_ok 8 x (by norm_num; omega) (by norm_num; omega)
      rw [hp]; exact ⟨_, rfl⟩
    · refine dump_huge_ok x ?_ ?_
      · simpa [wfValue] using hwf
      · simp only [hugeMag]
        split_ifs with hx0 <;> omega
  | vbytes s =>
    obtain ⟨_, hlen⟩ : s.all (fun b => decide (b < 256)) = true ∧ s.length < 2 ^ 32 := by
      simpa [wfValue, Bool.and_eq_true] using hwf
    simp only [dumpBody]
    split_ifs with h1 h2
    · exact ⟨_, rfl⟩
    · have hp : _dump_ushort s.length = .ok (natBytesBE 2 s.length) :=
        packUnsigned_ok 2 s.length (by norm_num; omega)
      rw [hp]; exact ⟨_, rfl⟩
    · have hp : _dump_uint s.length = .ok (natBytesBE 4 s.length) :=
        packUnsigned_ok 4 s.length (by norm_num; omega)
      rw [hp]; exact ⟨_, rfl⟩
  | vtext s =>
    obtain ⟨_, hlen⟩ : utf8Valid s = true ∧ s.length < 2 ^ 32 := by
      simpa [wfValue, Bool.and_eq_true] using hwf
    simp only [dumpBody]
    split_ifs with h1 h2
    · exact ⟨_, rfl⟩
    · have hp : _dump_ushort s.length = .ok (natBytesBE 2 s.length) :=
        packUnsigned_ok 2 s.length (by norm_num; omega)
      rw [hp]; exact ⟨_, rfl⟩
    · have hp : _dump_uint s.length = .ok (natBytesBE 4 s.length) :=
        packUnsigned_ok 4 s.length (by norm_num; omega)
      rw [hp]; exact ⟨_, rfl⟩
  | vlist items =>
    obtain ⟨hwl, hlen⟩ : wfItems items = true ∧ items.length < 2 ^ 32 := by
      simpa [wfValue, Bool.and_eq_true] using hwf
    simp only [maxNodeDepth] at hd
    obtain ⟨body, hbody⟩ := dumpItems_ok fuel hf items hwl hd
    simp only [dumpBody, hbody]
    split_ifs with h1 h2
    · exact ⟨_, rfl⟩
    · have hp : _dump_ushort items.length = .ok (natBytesBE 2 items.length) :=
        packUnsigned_ok 2 items.length (by norm_num; omega)
      rw [hp]; exact ⟨_, rfl⟩
    · have hp : _dump_uint items.length = .ok (natBytesBE 4 items.length) :=
        packUnsigned_ok 4 items.length (by norm_num; omega)
      rw [hp]; exact ⟨_, rfl⟩
  | vtuple items =>
    obtain ⟨hwl, hlen⟩ : wfItems items = true ∧ items.length < 2 ^ 32 := by
      simpa [wfValue, Bool.and_eq_true] using hwf
    simp only [maxNodeDepth] at hd
    obtain ⟨body, hbody⟩ := dumpItems_ok fuel hf items hwl hd
    simp only [dumpBody, hbody]
    split_ifs with h1 h2
    · exact ⟨_, rfl⟩
    · have hp : _dump_ushort items.length = .ok (natBytesBE 2 items.length) :=
        packUnsigned_ok 2 items.length (by norm_num; omega)
      rw [hp]; exact ⟨_, rfl⟩
    · have hp : _dump_uint items.length = .ok (natBytesBE 4 items.length) :=
        packUnsigned_ok 4 items.length (by norm_num; omega)
      rw [hp]; exact ⟨_, rfl⟩
  | vset items =>
    obtain ⟨hwl, hlen⟩ : wfItems items = true ∧ items.length < 2 ^ 32 := by
      simpa [wfValue, Bool.and_eq_true] using hwf
    simp only [maxNodeDepth] at hd
    obtain ⟨body, hbody⟩ := dumpItems_ok fuel hf items hwl hd
    simp only [dumpBody, hbody]
    split_ifs with h1 h2
    · exact ⟨_, rfl⟩
    · have hp : _dump_ushort items.length = .ok (natBytesBE 2 items.length) :=
        packUnsigned_ok 2 items.length (by norm_num; omega)
      rw [hp]; exact ⟨_, rfl⟩
    · have hp : _dump_uint items.length = .ok (natBytesBE 4 items.length) :=
        packUnsigned_ok 4 items.length (by norm_num; omega)
      rw [hp]; exact ⟨_, rfl⟩
  | vdict pairs =>
    obtain ⟨hwl, hlen⟩ : wfMPairs pairs = true ∧ pairs.length < 2 ^ 32 := by
      simpa [wfValue, Bool.and_eq_true] using hwf
    simp only [maxNodeDepth] at hd
    obtain ⟨body, hbody⟩ := dumpPairs_ok fuel hf pairs hwl hd
    simp only [dumpBody, hbody]
    split_ifs with h1 h2
    · exact ⟨_, rfl⟩
    · have hp : _dump_ushort pairs.length = .ok (natBytesBE 2 pairs.length) :=
        packUnsigned_ok 2 pairs.length (by norm_num; omega)
      rw [hp]; exact ⟨_, rfl⟩
    · have hp : _dump_uint pairs.length = .ok (natBytesBE 4 pairs.length) :=
        packUnsigned_ok 4 pairs.length (by norm_num; omega)
      rw [hp]; exact ⟨_, rfl⟩
  | vdate y m d =>
    have hy : y ≤ 9999 := by
      simp [wfValue, dateOK, Bool.and_eq_true, decide_eq_true_eq] at hwf
      omega
    simp only [dumpBody]
    have hp : _dump_ushort y = .ok (natBytesBE 2 y) :=
      packUnsigned_ok 2 y (by norm_num; omega)
    rw [hp]; exact ⟨_, rfl⟩
  | vtime h mi s us =>
    have hus : us < 1000000 := by
      simp [wfValue, timeOK, Bool.and_eq_true, decide_eq_true_eq] at hwf
      omega
    simp only [dumpBody]
    have hp : _dump_uint us = .ok (natBytesBE 4 us) :=
      packUnsigned_ok 4 us (by norm_num; omega)
    rw [hp]; exact ⟨_, rfl⟩
  | vdatetime y mo d h mi s us =>
    obtain ⟨hy, hus⟩ : y ≤ 9999 ∧ us < 1000000 := by
      simp [wfValue, dateOK, timeOK, Bool.and_eq_true, decide_eq_true_eq] at hwf
      omega
    simp only [dumpBody]
    have hp1 : _dump_ushort y = .ok (natBytesBE 2 y) :=
      packUnsigned_ok 2 y (by norm_num; omega)
    have hp2 : _dump_uint us = .ok (natBytesBE 4 us) :=
      packUnsigned_ok 4 us (by norm_num; omega)
    rw [hp1, hp2]; exact ⟨_, rfl⟩
  | vtimedelta dd ss uu =>
    obtain ⟨h1, h2, h3, h4, h5, h6⟩ :
        (-999999999 ≤ dd) ∧ dd ≤ 999999999 ∧ 0 ≤ ss ∧ ss < 86400 ∧ 0 ≤ uu ∧ uu < 1000000 := by
      simpa [wfValue, Bool.and_eq_true, decide_eq_true_eq, and_assoc] using hwf
    simp only [dumpBody]
    have hp1 : _dump_int dd = .ok (natBytesBE 4 (dd % (2 ^ (8 * 4) : Nat)).toNat) :=
      packSigned_ok 4 dd (by norm_num; omega) (by norm_num; omega)
    have hp2 : _dump_int ss = .ok (natBytesBE 4 (ss % (2 ^ (8 * 4) : Nat)).toNat) :=
      packSigned_ok 4 ss (by norm_num; omega) (by norm_num; omega)
    have hp3 : _dump_int uu = .ok (natBytesBE 4 (uu % (2 ^ (8 * 4) : Nat)).toNat) :=
      packSigned_ok 4 uu (by norm_num; omega) (by norm_num; omega)
    rw [hp1, hp2, hp3]; exact ⟨_, rfl⟩
  | vdecimal sign digits expo =>
    obtain ⟨hsg, hne, hall, hcount, he1, he2⟩ :
        (sign = 0 ∨ sign = 1) ∧ digits.isEmpty = false ∧
        digits.all (fun d => decide (d ≤ 9)) = true ∧ digits.length ≤ 65535 ∧
        (-32768 ≤ expo) ∧ expo < 32768 := by
      simpa [wfValue, Bool.and_eq_true, decide_eq_true_eq, and_assoc,
        Nat.beq_eq_true_eq, Bool.or_eq_true] using hwf
    simp only [dumpBody, _dump_decimal, hall, if_true]
    have hp1 : packSigned 1 (sign : Int) =
        .ok (natBytesBE 1 ((sign : Int) % (2 ^ (8 * 1) : Nat)).toNat) :=
      packSigned_ok 1 (sign : Int) (by norm_num; omega) (by norm_num; omega)
    have hp2 : packSigned 2 expo = .ok (natBytesBE 2 (expo % (2 ^ (8 * 2) : Nat)).toNat) :=
      packSigned_ok 2 expo (by norm_num; omega) (by norm_num; omega)
    have hp3 : packUnsigned 2 digits.length = .ok (natBytesBE 2 digits.length) :=
      packUnsigned_ok 2 digits.length (by norm_num; omega)
    rw [hp1, hp2, hp3]; exact ⟨_, rfl⟩

/-- The depth behavior of the serializer core: with `fuel` units of
depth budget left, serialization of a well-formed value succeeds
exactly when its deepest node is within the budget, and otherwise
fails with precisely the `max depth exceeded` error. -/
theorem dumpsRec_spec :
    ∀ (fuel : Nat) (item : MValue) (c : Bool), wfValue item = true →
      (maxNodeDepth item < fuel → ∃ bs, dumpsRec none fuel item c = .ok bs) ∧
      (fuel ≤ maxNodeDepth item → dumpsRec none fuel item c = .error .maxDepthExceeded) := by
  intro fuel
  induction fuel with
  | zero =>
    intro item c hwf
    exact ⟨fun h => absurd h (by omega), fun _ => rfl⟩
  | succ fuel ih =>
    have hok : ∀ v c, wfValue v = true → maxNodeDepth v < fuel →
        ∃ bs, dumpsRec none fuel v c = .ok bs :=
      fun v c hw hd => (ih v c hw).1 hd
    have herr : ∀ v c, wfValue v = true → fuel ≤ maxNodeDepth v →
        dumpsRec none fuel v c = .error .maxDepthExceeded :=
      fun v c hw hd => (ih v c hw).2 hd
    intro item c hwf
    constructor
    · intro hd
      obtain ⟨bs, hbs⟩ := dumpBody_ok fuel hok item hwf (by omega)
      exact ⟨_dump_char ((_get_type_code item : Nat) : Int) ++ bs,
        by simp only [dumpsRec, hbs]⟩
    · intro hd
      cases item <;> simp only [maxNodeDepth] at hd
      case vlist items =>
        obtain ⟨hwl, _⟩ : wfItems items = true ∧ items.length < 2 ^ 32 := by
          simpa [wfValue, Bool.and_eq_true] using hwf
        have hb := dumpItems_err fuel hok herr items hwl (by omega)
        simp only [dumpsRec, dumpBody, hb]
      case vtuple items =>
        obtain ⟨hwl, _⟩ : wfItems items = true ∧ items.length < 2 ^ 32 := by
          simpa [wfValue, Bool.and_eq_true] using hwf
        have hb := dumpItems_err fuel hok herr items hwl (by omega)
        simp only [dumpsRec, dumpBody, hb]
      case vset items =>
        obtain ⟨hwl, _⟩ : wfItems items = true ∧ items.length < 2 ^ 32 := by
          simpa [wfValue, Bool.and_eq_true] using hwf
        have hb := dumpItems_err fuel hok herr items hwl (by omega)
        simp only [dumpsRec, dumpBody, hb]
      case vdict pairs =>
        obtain ⟨hwl, _⟩ : wfMPairs pairs = true ∧ pairs.length < 2 ^ 32 := by
          simpa [wfValue, Bool.and_eq_true] using hwf
        have hb := dumpPairs_err fuel hok herr pairs hwl (by omega)
        simp only [dumpsRec, dumpBody, hb]
      all_goals omega

/-- C4 (amended): on encode, `pure_python_dumps` raises
`ValueError("max depth exceeded")` exactly when some node of the value
sits at recursion depth ≥ `MAX_DEPTH` (the root being at `depth`);
equivalently, with the default `depth=0`, a value fails iff its
deepest node is at depth ≥ 256 — so a 256-deep chain of lists ending
in an *empty* list still encodes while a 256-deep chain ending in a
scalar fails.  On decode there is no depth guard at all: the
pure-Python `_loads` decodes crafted streams of every nesting depth
(`nestStream n` has `n + 1` nested lists), limited only by the host
interpreter's stack, which the embedding abstracts. -/
theorem C4_amended :
    (∀ (v : MValue) (d : Nat) (c : Bool), wfValue v = true →
      (MAX_DEPTH ≤ d + maxNodeDepth v →
        pure_python_dumps none v d c = .error .maxDepthExceeded) ∧
      (d + maxNodeDepth v < MAX_DEPTH →
        ∃ bs, pure_python_dumps none v d c = .ok bs)) ∧
    (∀ n : Nat, pure_python_loads none (nestStream n) = .ok (nestVal n)) := by
  constructor
  · intro v d c hwf
    constructor
    · intro hd
      simp only [pure_python_dumps]
      exact (dumpsRec_spec (MAX_DEPTH - d) v c hwf).2 (by simp only [MAX_DEPTH] at *; omega)
    · intro hd
      simp only [pure_python_dumps]
      exact (dumpsRec_spec (MAX_DEPTH - d) v c hwf).1 (by simp only [MAX_DEPTH] at *; omega)
  · exact nest_decodes

/-- Counterexample for C4: the value `nestVal 255` (256 nested lists,
nesting depth 256, deepest node at dump depth 255) encodes
successfully, and the crafted stream `nestStream 300` (301 nested
lists) decodes successfully — neither triggers a depth-exceeded
error, refuting both halves of the claim as stated. -/
theorem C4_counterexample :
    pure_python_dumps none (nestVal 255) 0 true = .ok (nestStream 255) ∧
    pure_python_loads none (nestStream 300) = .ok (nestVal 300) := by
  constructor
  · simp only [pure_python_dumps]
    exact dumps_nestVal 255 (MAX_DEPTH - 0) true (by simp [MAX_DEPTH])
  · exact nest_decodes 300

/-- Witness for C4 (amended): a flat value at an over-budget depth
errors; at depth 0 it encodes; the trivial nested stream decodes. -/
theorem C4_amended_witness :
    wfValue (.vint 3) = true ∧
    pure_python_dumps none (.vint 3) 260 false = .error .maxDepthExceeded ∧
    (∃ bs, pure_python_dumps none (.vint 3) 0 false = .ok bs) ∧
    pure_python_loads none (nestStream 0) = .ok (nestVal 0) := by
  refine ⟨rfl, ?_, ?_, C4_amended.2 0⟩
  · exact (C4_amended.1 (.vint 3) 260 false rfl).1 (by simp [maxNodeDepth, MAX_DEPTH])
  · exact (C4_amended.1 (.vint 3) 0 false rfl).2 (by simp [maxNodeDepth, MAX_DEPTH])
